import Mathlib

/-!
Verification development for the bill-management backend
(tenant / dependent-record temporal versioning core).

The JavaScript sources are shallowly embedded below:

* `src/backend/src/utils/dateUtil.js` (`getMonthStart`)           → `getMonthStart`
* `src/backend/src/routes/tenants.js`                             → `createTenant`, `reviseTenant`, `softDeleteTenant`
* `src/backend/src/routes/powerMeters.js`                         → `createPowerMeter`, `updatePowerMeter`, `deletePowerMeter`
* `src/backend/src/routes/generalSetup.js` (monthly-readings part)→ `createMonthlyReading`
* `src/backend/src/routes/rentHistory.js`                         → `createRent`, `updateRent`, `deleteRent`
* `src/backend/src/routes/waterHistory.js`                        → `createWater`, `updateWater`, `deleteWater`
* `src/backend/src/routes/maintenanceHistory.js`                  → `createMaintenance`, `updateMaintenance`, `deleteMaintenance`

JavaScript `Date` values are modelled as UTC civil timestamps
(`Instant`: a calendar day plus a minute-of-day).  The server's local
timezone appears as an explicit offset (`Env.tz`, minutes east of UTC;
real-world offsets lie in [-720, 840]).  This captures exactly the Date
operations the sources perform: parsing an ISO `YYYY-MM-DD` string as UTC
midnight, reading the local year/month (`getFullYear`/`getMonth`),
building a local-midnight date (`new Date(y, m, d)` and `setMonth`), and
rendering either in UTC (`toISOString`) or in Asia/Kolkata
(`toLocaleDateString("en-CA", { timeZone: "Asia/Kolkata" })`, a fixed
UTC+05:30 with no DST).  All shifts involved are under one day, so day
carries are a single calendar-day step.

The relational store is a record of lists of rows; supabase query
primitives are embedded as list operations (`filter`, `map`-update,
append-insert, `single()` = "exactly one matching row").  Database
identifier generation (serial ids / column defaults) is not part of the
repository sources, so it is modelled from the spec: fresh ids are
`1 + max existing id`, new tenants start at version 1 with null counters
and false flags.  Audit columns (`created_at`/`updated_at`) are omitted.
Request payloads are modelled as records of optional columns — the
entity fields the routes work with; row identity and status columns are
managed by the routes themselves.
-/

/-! ### Calendar basics -/

/-- Proleptic Gregorian leap-year test (as JS `Date` computes months). -/
def isLeap (y : Int) : Bool :=
  y % 4 == 0 && (y % 100 != 0 || y % 400 == 0)

/-- Days in month `m` (1-12) of year `y`. -/
def daysInMonth (y : Int) (m : Nat) : Nat :=
  match m with
  | 2 => if isLeap y then 29 else 28
  | 4 | 6 | 9 | 11 => 30
  | _ => 31

/-- A civil calendar date (year, month 1-12, day 1-..). -/
structure YMD where
  y : Int
  m : Nat
  d : Nat
deriving Repr, DecidableEq

/-- Calendar successor of a day. -/
def nextDay (x : YMD) : YMD :=
  if x.d < daysInMonth x.y x.m then ⟨x.y, x.m, x.d + 1⟩
  else if x.m < 12 then ⟨x.y, x.m + 1, 1⟩
  else ⟨x.y + 1, 1, 1⟩

/-- Calendar predecessor of a day. -/
def prevDay (x : YMD) : YMD :=
  if 1 < x.d then ⟨x.y, x.m, x.d - 1⟩
  else if 1 < x.m then ⟨x.y, x.m - 1, daysInMonth x.y (x.m - 1)⟩
  else ⟨x.y - 1, 12, 31⟩

/-- A JS `Date` value: a UTC timestamp as calendar day + minute of day. -/
structure Instant where
  date : YMD
  minute : Nat
deriving Repr, DecidableEq

/-- Shift a timestamp by `mins` minutes (valid for shifts of less than a
day, i.e. every timezone conversion performed by the sources). -/
def shiftMinutes (t : Instant) (mins : Int) : Instant :=
  let total : Int := (t.minute : Int) + mins
  if total < 0 then ⟨prevDay t.date, (total + 1440).toNat⟩
  else if total < 1440 then ⟨t.date, total.toNat⟩
  else ⟨nextDay t.date, (total - 1440).toNat⟩

/-! ### ISO date strings -/

/-- Decimal digit character. -/
def digitChar (k : Nat) : Char := Char.ofNat (48 + k)

/-- Decimal value of a digit character, if any. -/
def digitVal (c : Char) : Option Nat :=
  if 48 ≤ c.toNat ∧ c.toNat ≤ 57 then some (c.toNat - 48) else none

/-- Render a date as `YYYY-MM-DD` (the `en-CA` locale format and the date
part of `toISOString`).  Faithful for years 0-9999, the range ISO
`YYYY-MM-DD` inputs can produce. -/
def formatYMD (x : YMD) : String :=
  let n := x.y.toNat
  String.mk [digitChar (n / 1000 % 10), digitChar (n / 100 % 10),
             digitChar (n / 10 % 10), digitChar (n % 10), '-',
             digitChar (x.m / 10), digitChar (x.m % 10), '-',
             digitChar (x.d / 10), digitChar (x.d % 10)]

/-- `new Date(dateString)` on an ISO `YYYY-MM-DD` string: the calendar
date (parsed as UTC midnight), or `none` for an invalid date
(`isNaN(date)`).  JS range-checks ISO components, including leap days. -/
def jsParseDate (s : String) : Option YMD :=
  match s.data with
  | [y1, y2, y3, y4, s1, m1, m2, s2, d1, d2] =>
    if s1 = '-' ∧ s2 = '-' then
      match digitVal y1, digitVal y2, digitVal y3, digitVal y4,
            digitVal m1, digitVal m2, digitVal d1, digitVal d2 with
      | some a, some b, some c, some d, some e, some f, some g, some h =>
        let y : Int := Int.ofNat (a * 1000 + b * 100 + c * 10 + d)
        let m := e * 10 + f
        let dd := g * 10 + h
        if 1 ≤ m ∧ m ≤ 12 ∧ 1 ≤ dd ∧ dd ≤ daysInMonth y m then
          some ⟨y, m, dd⟩
        else none
      | _, _, _, _, _, _, _, _ => none
    else none
  | _ => none

/-! ### Server environment -/

/-- Server environment: local timezone offset (minutes east of UTC) and
the current wall-clock instant (`new Date()`). -/
structure Env where
  tz : Int
  now : Instant
deriving Repr, DecidableEq

/-- Error taxonomy of the spec (section 7).  `invalidDate` is the
Date-Normalizer failure surfaced as a ValidationError (HTTP 400 with the
date message); `notFound` is HTTP 404; `conflict` is a violated
entity-specific precondition (duplicate history, wrong reading count,
missing chained reading; HTTP 400 with a descriptive message);
`badRequest` covers the remaining 400s (e.g. `start_date` supplied on a
versioned meter update). -/
inductive Err where
  | invalidDate
  | notFound
  | conflict
  | badRequest
deriving Repr, DecidableEq

/-- Core of `getMonthStart`: from a base `Date`, read the local year and
month, build local midnight of the 1st (`new Date(y, m, 1)`), and render
it in Asia/Kolkata (`toLocaleDateString("en-CA", ...)`, UTC+05:30). -/
def monthStartOf (env : Env) (base : Instant) : String :=
  let loc := shiftMinutes base env.tz
  let monthStartUTC := shiftMinutes ⟨⟨loc.date.y, loc.date.m, 1⟩, 0⟩ (-env.tz)
  let ist := shiftMinutes monthStartUTC 330
  formatYMD ist.date

/-- `getMonthStart(dateString?)` from `utils/dateUtil.js`: normalize a
date (or the current date when absent) to the first day of its month,
as a `YYYY-MM-DD` string; throws on an unparsable input. -/
def getMonthStart (env : Env) (dateString : Option String) : Except Err String :=
  match dateString with
  | some s =>
    match jsParseDate s with
    | none => .error .invalidDate
    | some d => .ok (monthStartOf env ⟨d, 0⟩)
  | none => .ok (monthStartOf env env.now)

/-- `getMonthStart()` with no argument (always succeeds). -/
def getMonthStartNow (env : Env) : String := monthStartOf env env.now

/-- Previous-month key of `POST /monthly-reading` (generalSetup.js
155-182): `new Date(month)` (UTC midnight), local year/month, then
`new Date(year, month - 1, 1)` (local midnight of the first of the
previous local month) rendered through `toISOString().split('T')[0]`
(UTC). -/
def prevMonthKey (env : Env) (monthStr : String) : Except Err String :=
  match jsParseDate monthStr with
  | none => .error .invalidDate
  | some d =>
    let loc := shiftMinutes ⟨d, 0⟩ env.tz
    let pm : YMD :=
      if loc.date.m = 1 then ⟨loc.date.y - 1, 12, 1⟩
      else ⟨loc.date.y, loc.date.m - 1, 1⟩
    let utc := shiftMinutes ⟨pm, 0⟩ (-env.tz)
    .ok (formatYMD utc.date)

/-- `prevMonth.setMonth(prevMonth.getMonth() - 1)` followed by
`toISOString().split('T')[0]` (powerMeters.js 67-80 and 165-172):
decrement the local month keeping the local day and time, rolling a
day-of-month overflow forward (JS `MakeDay`), then render the UTC date. -/
def setMonthMinus1Key (env : Env) (t : Instant) : String :=
  let loc := shiftMinutes t env.tz
  let y' : Int := if loc.date.m = 1 then loc.date.y - 1 else loc.date.y
  let m' : Nat := if loc.date.m = 1 then 12 else loc.date.m - 1
  let rolled : YMD :=
    if loc.date.d ≤ daysInMonth y' m' then ⟨y', m', loc.date.d⟩
    else if m' = 12 then ⟨y' + 1, 1, loc.date.d - daysInMonth y' m'⟩
    else ⟨y', m' + 1, loc.date.d - daysInMonth y' m'⟩
  (shiftMinutes ⟨rolled, loc.minute⟩ (-env.tz)).date |> formatYMD

/-! ### Data model

Row types for the tables the versioning core touches.  `status` rules
follow the sources: rows are soft-deleted by flipping to `inactive` and
setting `end_date`; monthly readings have no status and are hard-deleted. -/

/-- Row status (`status` column). -/
inductive Status where
  | active
  | inactive
deriving Repr, DecidableEq

/-- `status = 'active'` test (`.eq('status', 'active')`). -/
def Status.isActive : Status → Bool
  | .active => true
  | .inactive => false

/-- A `tenants` row.  `name` stands for the free-form tenant columns;
counters are nullable in the store (`(x || 0)` in the sources). -/
structure TenantRow where
  tenant_id : Nat
  tenant_version : Nat
  status : Status
  name : String
  start_date : String
  end_date : Option String
  power_meter_count : Option Nat
  rent_portion_count : Option Nat
  water_required : Bool
  maintenance_required : Bool
deriving Repr, DecidableEq

/-- A `power_meters` row.  `label` stands for the free-form meter
columns (`...meterFields`). -/
structure MeterRow where
  meter_id : Nat
  tenant_id : Nat
  tenant_version : Nat
  status : Status
  label : String
  start_date : String
  end_date : Option String
  initial_reading : Option Int
deriving Repr, DecidableEq

/-- A `monthly_readings` row (no status column; hard-deleted). -/
structure ReadingRow where
  reading_id : Nat
  tenant_id : Nat
  tenant_version : Nat
  meter_id : Nat
  month : String
  previous_reading : Option Int
  current_reading : Option Int
  rate_per_unit : Option Int
deriving Repr, DecidableEq

/-- A `rent_history` row. `amount` stands for the free-form columns. -/
structure RentRow where
  rent_id : Nat
  tenant_id : Nat
  tenant_version : Nat
  status : Status
  start_date : String
  end_date : Option String
  amount : Option Int
deriving Repr, DecidableEq

/-- A `water_history` row. `amount` stands for the free-form columns. -/
structure WaterRow where
  water_id : Nat
  tenant_id : Nat
  tenant_version : Nat
  status : Status
  start_date : String
  end_date : Option String
  amount : Option Int
deriving Repr, DecidableEq

/-- A `maintenance_history` row. -/
structure MaintRow where
  maintenance_id : Nat
  tenant_id : Nat
  tenant_version : Nat
  status : Status
  start_date : String
  end_date : Option String
  amount : Option Int
deriving Repr, DecidableEq

/-- The relational store. -/
structure DB where
  tenants : List TenantRow
  power_meters : List MeterRow
  monthly_readings : List ReadingRow
  rent_history : List RentRow
  water_history : List WaterRow
  maintenance_history : List MaintRow
deriving Repr, DecidableEq

/-- supabase `.single()`: succeeds only when exactly one row matches. -/
def singleRow {α : Type} (rows : List α) : Option α :=
  match rows with
  | [r] => some r
  | _ => none

/-- The active rows of a given tenant
(`.eq('tenant_id', id).eq('status', 'active')`). -/
def activeTenantRows (ts : List TenantRow) (tid : Nat) : List TenantRow :=
  ts.filter (fun r => r.tenant_id == tid && r.status.isActive)

/-- `.order('tenant_version', { ascending: false }).limit(1).single()`
on the active rows: the highest-version active row, if any (leftmost on
a version tie). -/
def maxByVersion : List TenantRow → Option TenantRow
  | [] => none
  | r :: rs =>
    match maxByVersion rs with
    | none => some r
    | some b => if r.tenant_version ≥ b.tenant_version then some r else some b

/-- The tenant-row update every dependent-record route performs before
inserting a new tenant version:
`.update({ status: 'inactive', end_date: cur }).eq('tenant_id', tid).eq('status', 'active')`. -/
def deactivateTenantActives (ts : List TenantRow) (tid : Nat) (endDate : String) :
    List TenantRow :=
  ts.map (fun r =>
    if r.tenant_id == tid && r.status.isActive then
      { r with status := .inactive, end_date := some endDate }
    else r)

/-- The tenant-row update of `PUT /tenants/:id` and `DELETE /tenants/:id`:
`.update({ status: 'inactive', end_date: cur }).eq('tenant_id', tid).eq('tenant_version', v).eq('status', 'active')`. -/
def deactivateTenantVersion (ts : List TenantRow) (tid v : Nat) (endDate : String) :
    List TenantRow :=
  ts.map (fun r =>
    if r.tenant_id == tid && r.tenant_version == v && r.status.isActive then
      { r with status := .inactive, end_date := some endDate }
    else r)

/-- Fresh serial id, modelled from the spec (the schema with its id
generation is not part of the repository sources): one above the
largest id in use. -/
def freshId (ids : List Nat) : Nat := ids.foldr max 0 + 1

/-- JS spread overlay on one optional column:
the payload value when the key is present, else the row value. -/
def overlay {α : Type} (new old : Option α) : Option α :=
  match new with
  | some v => some v
  | none => old

/-! ### Request payloads

Partial records of entity columns: `none` means the key is absent from
the JSON body, mirroring JS spread overlay (`{...row, ...updateFields}`). -/

/-- Tenant payload fields (`req.body` minus the route-managed columns). -/
structure TenantFields where
  name : Option String := none
  start_date : Option String := none
deriving Repr, DecidableEq

/-- Meter payload fields: `start_date` and `initial_reading` are
destructured explicitly by the routes; `label` stands for
`...meterFields`. -/
structure MeterFields where
  label : Option String := none
  start_date : Option String := none
  initial_reading : Option Int := none
deriving Repr, DecidableEq

/-- Rent/water/maintenance history payload fields. -/
structure HistFields where
  start_date : Option String := none
  amount : Option Int := none
deriving Repr, DecidableEq

/-- Update-mode tag of the `{ type: ... }` responses. -/
inductive UpdType where
  | inPlace
  | versioned
deriving Repr, DecidableEq

/-! ### Tenant routes (`routes/tenants.js`) -/

/-- `POST /tenants`: insert `{...req.body, status: 'active',
tenant_version: 1, start_date: getMonthStart(req.body.start_date)}`.
The fresh `tenant_id` and the null/false column defaults are modelled
from the spec (schema not in the sources). -/
def createTenant (env : Env) (f : TenantFields) (db : DB) :
    Except Err TenantRow × DB :=
  match getMonthStart env f.start_date with
  | .error e => (.error e, db)
  | .ok startDate =>
    let row : TenantRow :=
      { tenant_id := freshId (db.tenants.map (·.tenant_id))
        tenant_version := 1
        status := .active
        name := f.name.getD ""
        start_date := startDate
        end_date := none
        power_meter_count := none
        rent_portion_count := none
        water_required := false
        maintenance_required := false }
    (.ok row, { db with tenants := db.tenants ++ [row] })

/-- `PUT /tenants/:id`: fetch the highest-version active row (404 if
none); `inPlace` rewrites it (start_date renormalized when supplied);
otherwise the row is first set inactive with `end_date` = current month
start, then — after normalizing `fields.start_date`, which can still
fail — a copy with the fields overlaid, `tenant_version + 1`,
`status: 'active'`, `end_date: null` is inserted. -/
def reviseTenant (env : Env) (id : Nat) (inPlace : Bool) (f : TenantFields)
    (db : DB) : Except Err (UpdType × TenantRow) × DB :=
  match maxByVersion (activeTenantRows db.tenants id) with
  | none => (.error .notFound, db)
  | some cur =>
    let currentMonthDate := getMonthStartNow env
    if inPlace then
      match f.start_date with
      | some s =>
        match jsParseDate s with
        | none => (.error .invalidDate, db)
        | some d =>
          let ns := monthStartOf env ⟨d, 0⟩
          let upd := fun (r : TenantRow) =>
            { r with name := f.name.getD r.name, start_date := ns }
          let ts := db.tenants.map (fun r =>
            if r.tenant_id == id && r.tenant_version == cur.tenant_version
                && r.status.isActive then upd r else r)
          (.ok (.inPlace, upd cur), { db with tenants := ts })
      | none =>
        let upd := fun (r : TenantRow) => { r with name := f.name.getD r.name }
        let ts := db.tenants.map (fun r =>
          if r.tenant_id == id && r.tenant_version == cur.tenant_version
              && r.status.isActive then upd r else r)
        (.ok (.inPlace, upd cur), { db with tenants := ts })
    else
      let ts1 := deactivateTenantVersion db.tenants id cur.tenant_version
        currentMonthDate
      let db1 := { db with tenants := ts1 }
      match (match f.start_date with
             | some s => getMonthStart env (some s)
             | none => .ok currentMonthDate) with
      | .error e => (.error e, db1)
      | .ok newStartDate =>
        let newRow : TenantRow :=
          { cur with
            name := f.name.getD cur.name
            tenant_version := cur.tenant_version + 1
            status := .active
            start_date := newStartDate
            end_date := none }
        (.ok (.versioned, newRow), { db1 with tenants := ts1 ++ [newRow] })

/-- `DELETE /tenants/:id`: soft delete — the highest-version active row
is set inactive with `end_date` = current month start; no new version. -/
def softDeleteTenant (env : Env) (id : Nat) (db : DB) :
    Except Err TenantRow × DB :=
  match maxByVersion (activeTenantRows db.tenants id) with
  | none => (.error .notFound, db)
  | some cur =>
    let currentMonthDate := getMonthStartNow env
    let ts := deactivateTenantVersion db.tenants id cur.tenant_version
      currentMonthDate
    (.ok { cur with status := .inactive, end_date := some currentMonthDate },
     { db with tenants := ts })

/-! ### Power meter routes (`routes/powerMeters.js`) -/

/-- `POST /power-meters`: normalize `start_date` (400 on failure), fetch
the active tenant with `.single()` (404), inactivate its active rows,
insert a version-bumped tenant copy with `power_meter_count + 1` and
`start_date` = current month start (its `end_date` is spread from the
old row, not reset), insert the meter pinned to the new version, then
seed the baseline reading at `setMonth(getMonth() - 1)` of the raw
`start_date` (a missing `start_date` normalizes to the current month but
then fails the `isNaN` check at step 67-71, after the inserts). -/
def createPowerMeter (env : Env) (tenant_id : Nat) (start_date : Option String)
    (initial_reading : Option Int) (f : MeterFields) (db : DB) :
    Except Err (MeterRow × TenantRow × ReadingRow) × DB :=
  let currentMonthDate := getMonthStartNow env
  match getMonthStart env start_date with
  | .error e => (.error e, db)
  | .ok startDate =>
    match singleRow (activeTenantRows db.tenants tenant_id) with
    | none => (.error .notFound, db)
    | some tenant =>
      let ts1 := deactivateTenantActives db.tenants tenant_id currentMonthDate
      let newTenant : TenantRow :=
        { tenant with
          tenant_version := tenant.tenant_version + 1
          start_date := currentMonthDate
          power_meter_count := some (tenant.power_meter_count.getD 0 + 1)
          status := .active }
      let db1 := { db with tenants := ts1 ++ [newTenant] }
      let newMeter : MeterRow :=
        { meter_id := freshId (db.power_meters.map (·.meter_id))
          tenant_id := tenant_id
          tenant_version := newTenant.tenant_version
          status := .active
          label := f.label.getD ""
          start_date := startDate
          end_date := none
          initial_reading := initial_reading }
      let db2 := { db1 with power_meters := db1.power_meters ++ [newMeter] }
      match start_date with
      | none => (.error .invalidDate, db2)
      | some raw =>
        match jsParseDate raw with
        | none => (.error .invalidDate, db2)
        | some d =>
          let monthStr := setMonthMinus1Key env ⟨d, 0⟩
          let reading : ReadingRow :=
            { reading_id := freshId (db2.monthly_readings.map (·.reading_id))
              tenant_id := tenant_id
              tenant_version := newTenant.tenant_version
              meter_id := newMeter.meter_id
              month := monthStr
              previous_reading := initial_reading
              current_reading := initial_reading
              rate_per_unit := none }
          (.ok (newMeter, newTenant, reading),
           { db2 with monthly_readings := db2.monthly_readings ++ [reading] })

/-- `PUT /power-meters/:id`: fetch the active meter (404); `start_date`
with `inPlace: false` is rejected outright.  In place, a change of
`start_date` (string-different from the stored one) or of a truthy
`initial_reading` requires the `monthly_readings` count for this meter
to be exactly 1 (400 otherwise) and then rewrites the meter and the
baseline reading (month recomputed from the updated, normalized
`start_date`); otherwise it is a plain overlay of the active row.
Versioned: the row is set inactive and a copy (new serial `meter_id`)
with the fields overlaid and `start_date` = current month start is
inserted. -/
def updatePowerMeter (env : Env) (id : Nat) (inPlace : Bool) (f : MeterFields)
    (db : DB) : Except Err (UpdType × MeterRow × Option ReadingRow) × DB :=
  let currentMonthDate := getMonthStartNow env
  match singleRow (db.power_meters.filter
      (fun r => r.meter_id == id && r.status.isActive)) with
  | none => (.error .notFound, db)
  | some cur =>
    if f.start_date.isSome && !inPlace then (.error .badRequest, db)
    else if inPlace then
      let gate : Bool :=
        (match f.start_date with
         | some s => s != cur.start_date
         | none => false) ||
        (match f.initial_reading with
         | some v => v != 0 && some v != cur.initial_reading
         | none => false)
      if gate then
        match (match f.start_date with
               | some s =>
                 match jsParseDate s with
                 | none => Except.error Err.invalidDate
                 | some d => Except.ok (some (monthStartOf env ⟨d, 0⟩))
               | none => Except.ok none) with
        | .error e => (.error e, db)
        | .ok nsOpt =>
          if (db.monthly_readings.filter (fun r => r.meter_id == id)).length
              ≠ 1 then
            (.error .conflict, db)
          else
            let upd := fun (r : MeterRow) =>
              { r with
                label := f.label.getD r.label
                start_date := nsOpt.getD r.start_date
                initial_reading := overlay f.initial_reading r.initial_reading }
            let meters := db.power_meters.map (fun r =>
              if r.meter_id == id then upd r else r)
            let updatedMeter := upd cur
            match jsParseDate updatedMeter.start_date with
            | none => (.error .invalidDate, { db with power_meters := meters })
            | some d =>
              let prevMonthStr := setMonthMinus1Key env ⟨d, 0⟩
              let updR := fun (r : ReadingRow) =>
                { r with
                  month := prevMonthStr
                  previous_reading := updatedMeter.initial_reading
                  current_reading := updatedMeter.initial_reading }
              let readings := db.monthly_readings.map (fun r =>
                if r.meter_id == id then updR r else r)
              let shown := (db.monthly_readings.filter
                (fun r => r.meter_id == id)).head?.map updR
              (.ok (.inPlace, updatedMeter, shown),
               { db with power_meters := meters, monthly_readings := readings })
      else
        let upd := fun (r : MeterRow) =>
          { r with
            label := f.label.getD r.label
            start_date := f.start_date.getD r.start_date
            initial_reading := overlay f.initial_reading r.initial_reading }
        let meters := db.power_meters.map (fun r =>
          if r.meter_id == id && r.status.isActive then upd r else r)
        (.ok (.inPlace, upd cur, none), { db with power_meters := meters })
    else
      let meters := db.power_meters.map (fun r =>
        if r.meter_id == id then
          { r with status := .inactive, end_date := some currentMonthDate }
        else r)
      let newMeter : MeterRow :=
        { cur with
          meter_id := freshId (db.power_meters.map (·.meter_id))
          label := f.label.getD cur.label
          initial_reading := overlay f.initial_reading cur.initial_reading
          start_date := currentMonthDate
          status := .active }
      (.ok (.versioned, newMeter, none),
       { db with power_meters := meters ++ [newMeter] })

/-- `DELETE /power-meters/:id`: fetch the active meter (404); mark it
inactive with `end_date` = current month start; only then fetch the
owning active tenant — a 404 here leaves the meter already inactivated
and the tenant untouched.  Otherwise bump the tenant version with
`power_meter_count` decremented (floored at 0; `end_date` spread from
the old row). -/
def deletePowerMeter (env : Env) (id : Nat) (db : DB) :
    Except Err (MeterRow × TenantRow) × DB :=
  let currentMonthDate := getMonthStartNow env
  match singleRow (db.power_meters.filter
      (fun r => r.meter_id == id && r.status.isActive)) with
  | none => (.error .notFound, db)
  | some meter =>
    let meters := db.power_meters.map (fun r =>
      if r.meter_id == id then
        { r with status := .inactive, end_date := some currentMonthDate }
      else r)
    let db1 := { db with power_meters := meters }
    match singleRow (activeTenantRows db1.tenants meter.tenant_id) with
    | none => (.error .notFound, db1)
    | some tenant =>
      let ts1 := deactivateTenantActives db1.tenants meter.tenant_id
        currentMonthDate
      let newTenant : TenantRow :=
        { tenant with
          tenant_version := tenant.tenant_version + 1
          power_meter_count := some (tenant.power_meter_count.getD 0 - 1)
          start_date := currentMonthDate
          status := .active }
      let shownMeter : MeterRow :=
        { meter with status := .inactive, end_date := some currentMonthDate }
      (.ok (shownMeter, newTenant), { db1 with tenants := ts1 ++ [newTenant] })

/-! ### Monthly reading ledger (`routes/generalSetup.js`, reading part) -/

/-- `POST /monthly-reading`: require an active tenant and active meter
(`.single()`, 404 otherwise); compute the previous-month key from the
requested `month` (400 if unparsable); look up the reading row for
`(meter_id, previous_month)` with `.single()` — absent means strict
chaining fails (Conflict, nothing inserted); otherwise insert with
`previous_reading` taken verbatim from the found row's
`current_reading` (a caller-supplied `previous_reading` is never read)
and the requested `month` stored verbatim. -/
def createMonthlyReading (env : Env) (tenant_id meter_id : Nat)
    (month : Option String) (previous_reading current_reading rate_per_unit :
    Option Int) (db : DB) : Except Err ReadingRow × DB :=
  match singleRow (activeTenantRows db.tenants tenant_id) with
  | none => (.error .notFound, db)
  | some tenant =>
    match singleRow (db.power_meters.filter
        (fun r => r.meter_id == meter_id && r.status.isActive)) with
    | none => (.error .notFound, db)
    | some _meter =>
      match (match month with
             | none => Except.error Err.invalidDate
             | some ms => prevMonthKey env ms) with
      | .error e => (.error e, db)
      | .ok prevMonthStr =>
        match singleRow (db.monthly_readings.filter
            (fun r => r.meter_id == meter_id && r.month == prevMonthStr)) with
        | none => (.error .conflict, db)
        | some lastReading =>
          let row : ReadingRow :=
            { reading_id := freshId (db.monthly_readings.map (·.reading_id))
              tenant_id := tenant_id
              tenant_version := tenant.tenant_version
              meter_id := meter_id
              month := month.getD ""
              previous_reading := lastReading.current_reading
              current_reading := current_reading
              rate_per_unit := rate_per_unit }
          let _ := previous_reading
          (.ok row,
           { db with monthly_readings := db.monthly_readings ++ [row] })

/-! ### Rent history routes (`routes/rentHistory.js`) -/

/-- `POST /rent-history`: normalize `start_date` (400), fetch the active
tenant (`.single()`, 404), inactivate its active rows, insert a
version-bumped copy with `rent_portion_count + 1`, `start_date` =
current month start and `end_date: null`, then insert the rent row
pinned to the new tenant version. -/
def createRent (env : Env) (tenant_id : Nat) (start_date : Option String)
    (f : HistFields) (db : DB) : Except Err (RentRow × TenantRow) × DB :=
  let currentMonthDate := getMonthStartNow env
  match getMonthStart env start_date with
  | .error e => (.error e, db)
  | .ok normalizedStart =>
    match singleRow (activeTenantRows db.tenants tenant_id) with
    | none => (.error .notFound, db)
    | some tenant =>
      let ts1 := deactivateTenantActives db.tenants tenant_id currentMonthDate
      let newTenant : TenantRow :=
        { tenant with
          tenant_version := tenant.tenant_version + 1
          rent_portion_count := some (tenant.rent_portion_count.getD 0 + 1)
          start_date := currentMonthDate
          end_date := none
          status := .active }
      let row : RentRow :=
        { rent_id := freshId (db.rent_history.map (·.rent_id))
          tenant_id := tenant_id
          tenant_version := newTenant.tenant_version
          status := .active
          start_date := normalizedStart
          end_date := none
          amount := f.amount }
      (.ok (row, newTenant),
       { db with tenants := ts1 ++ [newTenant],
                 rent_history := db.rent_history ++ [row] })

/-- `PUT /rent-history/:id`: fetch the active rent row (404).  In place:
overlay the fields on the active row, renormalizing `start_date` when
supplied (400 on a bad date).  Versioned: set the row inactive with
`end_date` = current month start, insert a copy (new serial `rent_id`)
with the fields overlaid but `start_date` forced to the current month
start and `end_date: null` — the `tenant_version` is spread from the
old row, no tenant bump happens. -/
def updateRent (env : Env) (id : Nat) (inPlace : Bool) (f : HistFields)
    (db : DB) : Except Err (UpdType × RentRow) × DB :=
  let currentMonthDate := getMonthStartNow env
  match singleRow (db.rent_history.filter
      (fun r => r.rent_id == id && r.status.isActive)) with
  | none => (.error .notFound, db)
  | some cur =>
    if inPlace then
      match (match f.start_date with
             | some s => (getMonthStart env (some s)).map some
             | none => Except.ok none) with
      | .error e => (.error e, db)
      | .ok nsOpt =>
        let upd := fun (r : RentRow) =>
          { r with
            amount := overlay f.amount r.amount
            start_date := nsOpt.getD r.start_date }
        let rows := db.rent_history.map (fun r =>
          if r.rent_id == id && r.status.isActive then upd r else r)
        (.ok (.inPlace, upd cur), { db with rent_history := rows })
    else
      let rows := db.rent_history.map (fun r =>
        if r.rent_id == id then
          { r with status := .inactive, end_date := some currentMonthDate }
        else r)
      let newRent : RentRow :=
        { cur with
          rent_id := freshId (db.rent_history.map (·.rent_id))
          amount := overlay f.amount cur.amount
          start_date := currentMonthDate
          end_date := none
          status := .active }
      (.ok (.versioned, newRent),
       { db with rent_history := rows ++ [newRent] })

/-- `DELETE /rent-history/:id`: fetch the active rent row (404), set it
inactive, fetch the owning active tenant (404 — with the rent row
already inactivated), inactivate the tenant's active rows and insert a
version-bumped copy with `rent_portion_count` decremented (floor 0),
`start_date` = current month start, `end_date: null`. -/
def deleteRent (env : Env) (id : Nat) (db : DB) :
    Except Err (RentRow × TenantRow) × DB :=
  let currentMonthDate := getMonthStartNow env
  match singleRow (db.rent_history.filter
      (fun r => r.rent_id == id && r.status.isActive)) with
  | none => (.error .notFound, db)
  | some rent =>
    let rows := db.rent_history.map (fun r =>
      if r.rent_id == id then
        { r with status := .inactive, end_date := some currentMonthDate }
      else r)
    let db1 := { db with rent_history := rows }
    match singleRow (activeTenantRows db1.tenants rent.tenant_id) with
    | none => (.error .notFound, db1)
    | some tenant =>
      let ts1 := deactivateTenantActives db1.tenants rent.tenant_id
        currentMonthDate
      let newTenant : TenantRow :=
        { tenant with
          tenant_version := tenant.tenant_version + 1
          rent_portion_count := some (tenant.rent_portion_count.getD 0 - 1)
          start_date := currentMonthDate
          end_date := none
          status := .active }
      let shownRent : RentRow :=
        { rent with status := .inactive, end_date := some currentMonthDate }
      (.ok (shownRent, newTenant), { db1 with tenants := ts1 ++ [newTenant] })

/-! ### Water history routes (`routes/waterHistory.js`) -/

/-- `POST /water-history`: normalize `start_date` (400), fetch the
active tenant (`.single()`, 404), fail Conflict if
`tenant.water_required` is already true (nothing written), otherwise
bump the tenant version with `water_required: true` and insert the
water row pinned to the new version. -/
def createWater (env : Env) (tenant_id : Nat) (start_date : Option String)
    (f : HistFields) (db : DB) : Except Err (WaterRow × TenantRow) × DB :=
  let currentMonthDate := getMonthStartNow env
  match getMonthStart env start_date with
  | .error e => (.error e, db)
  | .ok normalizedStart =>
    match singleRow (activeTenantRows db.tenants tenant_id) with
    | none => (.error .notFound, db)
    | some tenant =>
      if tenant.water_required then (.error .conflict, db)
      else
        let ts1 := deactivateTenantActives db.tenants tenant_id
          currentMonthDate
        let newTenant : TenantRow :=
          { tenant with
            tenant_version := tenant.tenant_version + 1
            water_required := true
            start_date := currentMonthDate
            end_date := none
            status := .active }
        let row : WaterRow :=
          { water_id := freshId (db.water_history.map (·.water_id))
            tenant_id := tenant_id
            tenant_version := newTenant.tenant_version
            status := .active
            start_date := normalizedStart
            end_date := none
            amount := f.amount }
        (.ok (row, newTenant),
         { db with tenants := ts1 ++ [newTenant],
                   water_history := db.water_history ++ [row] })

/-- `PUT /water-history/:id`: fetch the active water row (404);
normalize `start_date` when supplied (400), in both modes.  In place:
overlay on the active row.  Versioned: set the row inactive with
`end_date` = current month start, insert a copy with the fields
overlaid (a supplied `start_date` carries through), `end_date: null` —
`tenant_version` is spread from the old row, no tenant bump. -/
def updateWater (env : Env) (id : Nat) (inPlace : Bool) (f : HistFields)
    (db : DB) : Except Err (UpdType × WaterRow) × DB :=
  match singleRow (db.water_history.filter
      (fun r => r.water_id == id && r.status.isActive)) with
  | none => (.error .notFound, db)
  | some cur =>
    match (match f.start_date with
           | some s => (getMonthStart env (some s)).map some
           | none => Except.ok none) with
    | .error e => (.error e, db)
    | .ok nsOpt =>
      if inPlace then
        let upd := fun (r : WaterRow) =>
          { r with
            amount := overlay f.amount r.amount
            start_date := nsOpt.getD r.start_date }
        let rows := db.water_history.map (fun r =>
          if r.water_id == id && r.status.isActive then upd r else r)
        (.ok (.inPlace, upd cur), { db with water_history := rows })
      else
        let rows := db.water_history.map (fun r =>
          if r.water_id == id then
            { r with status := .inactive,
                     end_date := some (getMonthStartNow env) }
          else r)
        let newWater : WaterRow :=
          { cur with
            water_id := freshId (db.water_history.map (·.water_id))
            amount := overlay f.amount cur.amount
            start_date := nsOpt.getD cur.start_date
            end_date := none
            status := .active }
        (.ok (.versioned, newWater),
         { db with water_history := rows ++ [newWater] })

/-- `DELETE /water-history/:id`: fetch the active water row (404), fetch
the owning active tenant (404), fail Conflict if
`tenant.water_required` is false (nothing written), otherwise set the
water row inactive and bump the tenant version with
`water_required: false`. -/
def deleteWater (env : Env) (id : Nat) (db : DB) :
    Except Err (WaterRow × TenantRow) × DB :=
  let currentMonthDate := getMonthStartNow env
  match singleRow (db.water_history.filter
      (fun r => r.water_id == id && r.status.isActive)) with
  | none => (.error .notFound, db)
  | some water =>
    match singleRow (activeTenantRows db.tenants water.tenant_id) with
    | none => (.error .notFound, db)
    | some tenant =>
      if !tenant.water_required then (.error .conflict, db)
      else
        let rows := db.water_history.map (fun r =>
          if r.water_id == id then
            { r with status := .inactive, end_date := some currentMonthDate }
          else r)
        let ts1 := deactivateTenantActives db.tenants water.tenant_id
          currentMonthDate
        let newTenant : TenantRow :=
          { tenant with
            tenant_version := tenant.tenant_version + 1
            water_required := false
            start_date := currentMonthDate
            end_date := none
            status := .active }
        let shownWater : WaterRow :=
          { water with status := .inactive, end_date := some currentMonthDate }
        (.ok (shownWater, newTenant),
         { db with water_history := rows, tenants := ts1 ++ [newTenant] })

/-! ### Maintenance history routes (`routes/maintenanceHistory.js`) -/

/-- `POST /maintenance-history`: as `createWater`, gated on
`tenant.maintenance_required` being false and flipping it to true. -/
def createMaintenance (env : Env) (tenant_id : Nat)
    (start_date : Option String) (f : HistFields) (db : DB) :
    Except Err (MaintRow × TenantRow) × DB :=
  let currentMonthDate := getMonthStartNow env
  match getMonthStart env start_date with
  | .error e => (.error e, db)
  | .ok normalizedStart =>
    match singleRow (activeTenantRows db.tenants tenant_id) with
    | none => (.error .notFound, db)
    | some tenant =>
      if tenant.maintenance_required then (.error .conflict, db)
      else
        let ts1 := deactivateTenantActives db.tenants tenant_id
          currentMonthDate
        let newTenant : TenantRow :=
          { tenant with
            tenant_version := tenant.tenant_version + 1
            maintenance_required := true
            start_date := currentMonthDate
            end_date := none
            status := .active }
        let row : MaintRow :=
          { maintenance_id := freshId (db.maintenance_history.map
              (·.maintenance_id))
            tenant_id := tenant_id
            tenant_version := newTenant.tenant_version
            status := .active
            start_date := normalizedStart
            end_date := none
            amount := f.amount }
        (.ok (row, newTenant),
         { db with tenants := ts1 ++ [newTenant],
                   maintenance_history := db.maintenance_history ++ [row] })

/-- `PUT /maintenance-history/:id`: as `updateWater` (start_date
normalized up front in both modes; versioned keeps the old row's
`tenant_version`, no tenant bump). -/
def updateMaintenance (env : Env) (id : Nat) (inPlace : Bool)
    (f : HistFields) (db : DB) : Except Err (UpdType × MaintRow) × DB :=
  match singleRow (db.maintenance_history.filter
      (fun r => r.maintenance_id == id && r.status.isActive)) with
  | none => (.error .notFound, db)
  | some cur =>
    match (match f.start_date with
           | some s => (getMonthStart env (some s)).map some
           | none => Except.ok none) with
    | .error e => (.error e, db)
    | .ok nsOpt =>
      if inPlace then
        let upd := fun (r : MaintRow) =>
          { r with
            amount := overlay f.amount r.amount
            start_date := nsOpt.getD r.start_date }
        let rows := db.maintenance_history.map (fun r =>
          if r.maintenance_id == id && r.status.isActive then upd r else r)
        (.ok (.inPlace, upd cur), { db with maintenance_history := rows })
      else
        let rows := db.maintenance_history.map (fun r =>
          if r.maintenance_id == id then
            { r with status := .inactive,
                     end_date := some (getMonthStartNow env) }
          else r)
        let newMaint : MaintRow :=
          { cur with
            maintenance_id := freshId (db.maintenance_history.map
              (·.maintenance_id))
            amount := overlay f.amount cur.amount
            start_date := nsOpt.getD cur.start_date
            end_date := none
            status := .active }
        (.ok (.versioned, newMaint),
         { db with maintenance_history := rows ++ [newMaint] })

/-- `DELETE /maintenance-history/:id`: as `deleteWater`, gated on
`tenant.maintenance_required` being true and flipping it to false. -/
def deleteMaintenance (env : Env) (id : Nat) (db : DB) :
    Except Err (MaintRow × TenantRow) × DB :=
  let currentMonthDate := getMonthStartNow env
  match singleRow (db.maintenance_history.filter
      (fun r => r.maintenance_id == id && r.status.isActive)) with
  | none => (.error .notFound, db)
  | some maint =>
    match singleRow (activeTenantRows db.tenants maint.tenant_id) with
    | none => (.error .notFound, db)
    | some tenant =>
      if !tenant.maintenance_required then (.error .conflict, db)
      else
        let rows := db.maintenance_history.map (fun r =>
          if r.maintenance_id == id then
            { r with status := .inactive, end_date := some currentMonthDate }
          else r)
        let ts1 := deactivateTenantActives db.tenants maint.tenant_id
          currentMonthDate
        let newTenant : TenantRow :=
          { tenant with
            tenant_version := tenant.tenant_version + 1
            maintenance_required := false
            start_date := currentMonthDate
            end_date := none
            status := .active }
        let shownMaint : MaintRow :=
          { maint with status := .inactive, end_date := some currentMonthDate }
        (.ok (shownMaint, newTenant),
         { db with maintenance_history := rows, tenants := ts1 ++ [newTenant] })

/-! ### Invariant vocabulary -/

/-- Number of active `tenants` rows carrying a given `tenant_id`. -/
def countActive (ts : List TenantRow) (tid : Nat) : Nat :=
  (activeTenantRows ts tid).length

/-- The spec's core invariant: for every tenant_id, at most one tenants
row has `status = active`. -/
def ActiveUnique (ts : List TenantRow) : Prop :=
  ∀ tid : Nat, countActive ts tid ≤ 1

deriving instance DecidableEq for Except

/-! ### Sample fixtures (concrete rows/stores for closed instances) -/

/-- A sample active tenant row (version 1, no dependents). -/
def tenantW : TenantRow :=
  ⟨1, 1, .active, "t", "2024-01-01", none, some 0, none, false, false⟩

/-- A sample active tenant row with `water_required = true`. -/
def tenantWy : TenantRow :=
  ⟨1, 1, .active, "t", "2024-01-01", none, some 0, none, true, false⟩

/-- A sample active power meter owned by `tenantW`. -/
def meterW : MeterRow :=
  ⟨1, 1, 1, .active, "m", "2024-03-01", none, some 100⟩

/-- A sample baseline reading of `meterW` for February 2024. -/
def readingW : ReadingRow :=
  ⟨1, 1, 1, 1, "2024-02-01", some 100, some 100, none⟩

/-- A sample active rent history row of `tenantW`. -/
def rentW : RentRow := ⟨1, 1, 1, .active, "2024-01-01", none, some 10⟩

/-- A sample active water history row. -/
def waterW : WaterRow := ⟨1, 1, 1, .active, "2024-01-01", none, some 5⟩

/-- A sample active maintenance history row. -/
def maintW : MaintRow := ⟨1, 1, 1, .active, "2024-01-01", none, some 7⟩

/-- A sample server environment: IST, current instant 2025-01-01 UTC. -/
def envW : Env := ⟨330, ⟨⟨2025, 1, 1⟩, 0⟩⟩

/-! ## Theorems

Helper lemmas first, then one theorem (with witness or counterexample)
per claim. -/

/-! ### Date lemmas -/

theorem digitVal_digitChar (k : Nat) (hk : k < 10) :
    digitVal (digitChar k) = some k := by
  interval_cases k <;> decide

theorem digitVal_lt (c : Char) (a : Nat) (h : digitVal c = some a) : a < 10 := by
  unfold digitVal at h
  split at h
  · rename_i hc
    have ha : c.toNat - 48 = a := by simpa using h
    omega
  · exact absurd h (by simp)

theorem daysInMonth_pos (y : Int) (m : Nat) : 28 ≤ daysInMonth y m := by
  unfold daysInMonth
  split <;> first
  | split <;> omega
  | omega

theorem jsParseDate_valid (s : String) (x : YMD) (h : jsParseDate s = some x) :
    1 ≤ x.m ∧ x.m ≤ 12 ∧ 1 ≤ x.d ∧ x.d ≤ daysInMonth x.y x.m ∧
    0 ≤ x.y ∧ x.y ≤ 9999 := by
  unfold jsParseDate at h
  split at h
  case h_2 => exact absurd h (by simp)
  case h_1 y1 y2 y3 y4 s1 m1 m2 s2 d1 d2 =>
    split at h
    case isFalse => exact absurd h (by simp)
    case isTrue =>
      split at h
      case h_2 => exact absurd h (by simp)
      case h_1 a b c d e f g hh ha hb hc hd he hf hg hhh =>
        dsimp only at h
        split at h
        case isFalse => exact absurd h (by simp)
        case isTrue hcond =>
          have hxa := digitVal_lt _ _ ha
          have hxb := digitVal_lt _ _ hb
          have hxc := digitVal_lt _ _ hc
          have hxd := digitVal_lt _ _ hd
          have hx : x = ⟨Int.ofNat (a * 1000 + b * 100 + c * 10 + d),
              e * 10 + f, g * 10 + hh⟩ := (Option.some_injective _ h).symm
          subst hx
          refine ⟨hcond.1, hcond.2.1, hcond.2.2.1, hcond.2.2.2,
            Int.ofNat_nonneg _, ?_⟩
          simp only [Int.ofNat_eq_coe]
          omega

theorem daysInMonth_le (y : Int) (m : Nat) : daysInMonth y m ≤ 31 := by
  unfold daysInMonth
  split <;> first
  | split <;> omega
  | omega

theorem formatYMD_parse (y : Int) (m d : Nat) (hy0 : 0 ≤ y) (hy1 : y ≤ 9999)
    (hm1 : 1 ≤ m) (hm2 : m ≤ 12) (hd1 : 1 ≤ d)
    (hd2 : d ≤ daysInMonth y m) :
    jsParseDate (formatYMD ⟨y, m, d⟩) = some ⟨y, m, d⟩ := by
  have hn : (y.toNat : Int) = y := Int.toNat_of_nonneg hy0
  have hn9 : y.toNat ≤ 9999 := by omega
  have hd31 : d ≤ 31 := le_trans hd2 (daysInMonth_le y m)
  unfold formatYMD jsParseDate
  dsimp only
  rw [digitVal_digitChar _ (by omega), digitVal_digitChar _ (by omega),
      digitVal_digitChar _ (by omega), digitVal_digitChar _ (by omega),
      digitVal_digitChar _ (by omega), digitVal_digitChar _ (by omega),
      digitVal_digitChar _ (by omega), digitVal_digitChar _ (by omega)]
  simp only [if_pos (by constructor <;> rfl : ('-' : Char) = '-' ∧ ('-' : Char) = '-')]
  have hyy : Int.ofNat (y.toNat / 1000 % 10 * 1000 + y.toNat / 100 % 10 * 100 +
      y.toNat / 10 % 10 * 10 + y.toNat % 10) = y := by
    simp only [Int.ofNat_eq_coe]
    omega
  have hmm : m / 10 * 10 + m % 10 = m := by omega
  have hdd : d / 10 * 10 + d % 10 = d := by omega
  rw [hyy, hmm, hdd]
  have hc : 1 ≤ m ∧ m ≤ 12 ∧ 1 ≤ d ∧ d ≤ daysInMonth y m :=
    ⟨hm1, hm2, hd1, hd2⟩
  exact if_pos hc

theorem nextDay_prevDay_first (y : Int) (m : Nat) (hm1 : 1 ≤ m)
    (hm2 : m ≤ 12) : nextDay (prevDay ⟨y, m, 1⟩) = ⟨y, m, 1⟩ := by
  unfold prevDay
  simp only [show ¬(1 < 1) from by omega, if_false]
  by_cases h : 1 < m
  · rw [if_pos h]
    unfold nextDay
    simp only [lt_irrefl, if_false]
    rw [if_pos (by omega : m - 1 < 12)]
    have : m - 1 + 1 = m := by omega
    rw [this]
  · rw [if_neg h]
    have hm : m = 1 := by omega
    subst hm
    unfold nextDay
    have h31 : daysInMonth (y - 1) 12 = 31 := rfl
    rw [h31, if_neg (by omega : ¬(31 < 31)), if_neg (by omega : ¬(12 < 12))]
    have hy : y - 1 + 1 = y := by omega
    rw [hy]

theorem shiftMinutes_zero_330 (x : YMD) :
    shiftMinutes ⟨x, 0⟩ 330 = ⟨x, 330⟩ := by
  unfold shiftMinutes
  norm_num
  decide

theorem shiftMinutes_zero_neg330 (x : YMD) :
    shiftMinutes ⟨x, 0⟩ (-330) = ⟨prevDay x, 1110⟩ := by
  unfold shiftMinutes
  norm_num
  decide

theorem shiftMinutes_1110_330 (x : YMD) :
    shiftMinutes ⟨x, 1110⟩ 330 = ⟨nextDay x, 0⟩ := by
  unfold shiftMinutes
  norm_num

theorem monthStartOf_ist (y : Int) (m d : Nat) (hm1 : 1 ≤ m) (hm2 : m ≤ 12)
    (now_ : Instant) :
    monthStartOf ⟨330, now_⟩ ⟨⟨y, m, d⟩, 0⟩ = formatYMD ⟨y, m, 1⟩ := by
  simp only [monthStartOf, show -(330 : Int) = (-330 : Int) from rfl,
    shiftMinutes_zero_330, shiftMinutes_zero_neg330, shiftMinutes_1110_330]
  rw [nextDay_prevDay_first _ _ hm1 hm2]

/-! ### C4 — date normalizer -/

/-- C4, counterexample: the normalizer is not independent of the server
locale.  On a server at UTC+7 (tz = 420 minutes, a real-world offset),
`getMonthStart("2024-03-15")` returns `"2024-02-29"` — not a day-01
string and not the first day of the input's month: the local midnight
`new Date(2024, 2, 1)` instant, rendered in Asia/Kolkata, falls on the
previous calendar day. -/
theorem C4_counterexample_tz :
    getMonthStart ⟨420, ⟨⟨2025, 1, 1⟩, 0⟩⟩ (some "2024-03-15") =
      .ok "2024-02-29" ∧
    "2024-02-29".data.drop 8 ≠ ['0', '1'] := by
  constructor
  · rfl
  · decide

/-- C4 (amended): with the server itself running in Indian Standard
Time (tz = +330), `getMonthStart` maps every parseable input to the
first day of that input's month as a `YYYY-MM-DD` string with day
component `01`, is idempotent on that output, and fails with
InvalidDate on every unparsable input. -/
theorem C4_normalizer_idempotent_ist (now_ : Instant) (s : String) :
    (jsParseDate s = none →
      getMonthStart ⟨330, now_⟩ (some s) = .error .invalidDate) ∧
    (∀ x : YMD, jsParseDate s = some x →
      getMonthStart ⟨330, now_⟩ (some s) = .ok (formatYMD ⟨x.y, x.m, 1⟩) ∧
      (formatYMD ⟨x.y, x.m, 1⟩).data.drop 8 = ['0', '1'] ∧
      getMonthStart ⟨330, now_⟩ (some (formatYMD ⟨x.y, x.m, 1⟩)) =
        .ok (formatYMD ⟨x.y, x.m, 1⟩)) := by
  constructor
  · intro h
    simp [getMonthStart, h]
  · intro x hx
    obtain ⟨hm1, hm2, hd1, hd2, hy0, hy1⟩ := jsParseDate_valid s x hx
    have hms : monthStartOf ⟨330, now_⟩ ⟨x, 0⟩ = formatYMD ⟨x.y, x.m, 1⟩ :=
      monthStartOf_ist x.y x.m x.d hm1 hm2 now_
    refine ⟨?_, ?_, ?_⟩
    · simp [getMonthStart, hx, hms]
    · simp only [formatYMD, List.drop]
      constructor
    · have hrt : jsParseDate (formatYMD ⟨x.y, x.m, 1⟩) =
          some ⟨x.y, x.m, 1⟩ :=
        formatYMD_parse x.y x.m 1 hy0 hy1 hm1 hm2 le_rfl
          (le_trans (by omega) (daysInMonth_pos x.y x.m))
      simp [getMonthStart, hrt]
      exact monthStartOf_ist x.y x.m 1 hm1 hm2 now_

/-- C4, witness: the amended theorem applied at `"2024-03-15"`. -/
theorem C4_normalizer_witness :
    getMonthStart ⟨330, ⟨⟨2025, 1, 1⟩, 0⟩⟩ (some "2024-03-15") =
      .ok (formatYMD ⟨2024, 3, 1⟩) ∧
    getMonthStart ⟨330, ⟨⟨2025, 1, 1⟩, 0⟩⟩ (some (formatYMD ⟨2024, 3, 1⟩)) =
      .ok (formatYMD ⟨2024, 3, 1⟩) :=
  have h := (C4_normalizer_idempotent_ist ⟨⟨2025, 1, 1⟩, 0⟩ "2024-03-15").2
    ⟨2024, 3, 15⟩ (by decide)
  ⟨h.1, h.2.2⟩

/-! ### Active-uniqueness lemmas -/

theorem countActive_append (ts us : List TenantRow) (tid : Nat) :
    countActive (ts ++ us) tid = countActive ts tid + countActive us tid := by
  simp [countActive, activeTenantRows, List.filter_append]

theorem countActive_deactivateActives_self (ts : List TenantRow)
    (tid : Nat) (e : String) :
    countActive (deactivateTenantActives ts tid e) tid = 0 := by
  induction ts with
  | nil => rfl
  | cons r rs ih =>
    simp only [deactivateTenantActives, List.map_cons] at *
    by_cases h : (r.tenant_id == tid && r.status.isActive) = true
    · simp only [if_pos h]
      simpa [countActive, activeTenantRows, Status.isActive] using ih
    · simp only [if_neg h]
      simpa [countActive, activeTenantRows, List.filter_cons, h] using ih

theorem countActive_deactivateActives_other (ts : List TenantRow)
    (tid tid2 : Nat) (e : String) (h : tid ≠ tid2) :
    countActive (deactivateTenantActives ts tid e) tid2 =
      countActive ts tid2 := by
  induction ts with
  | nil => rfl
  | cons r rs ih =>
    simp only [deactivateTenantActives, List.map_cons] at *
    by_cases hr : (r.tenant_id == tid && r.status.isActive) = true
    · have hid : r.tenant_id = tid := by
        have := hr
        simp only [Bool.and_eq_true, beq_iff_eq] at this
        exact this.1
      have hne : (r.tenant_id == tid2) = false := by
        simp [hid, h]
      simp only [if_pos hr]
      simp only [countActive, activeTenantRows, List.filter_cons]
      simpa [hne, countActive, activeTenantRows] using ih
    · simp only [if_neg hr]
      simp only [countActive, activeTenantRows, List.filter_cons]
      by_cases h2 : (r.tenant_id == tid2 && r.status.isActive) = true
      · simpa [h2, countActive, activeTenantRows] using ih
      · simpa [h2, countActive, activeTenantRows] using ih

theorem countActive_eq_countP (ts : List TenantRow) (tid : Nat) :
    countActive ts tid =
      ts.countP (fun r => r.tenant_id == tid && r.status.isActive) := by
  simp [countActive, activeTenantRows, List.countP_eq_length_filter]

theorem countActive_deactivateVersion_le (ts : List TenantRow)
    (tid v : Nat) (e : String) (tid2 : Nat) :
    countActive (deactivateTenantVersion ts tid v e) tid2 ≤
      countActive ts tid2 := by
  rw [countActive_eq_countP, countActive_eq_countP, deactivateTenantVersion,
    List.countP_map]
  refine List.countP_mono_left ?_
  intro r _ hr
  simp only [Function.comp_apply] at hr
  by_cases hc : (r.tenant_id == tid && r.tenant_version == v &&
      r.status.isActive) = true
  · rw [if_pos hc] at hr
    simp [Status.isActive] at hr
  · rwa [if_neg hc] at hr

theorem countActive_deactivateVersion_other (ts : List TenantRow)
    (tid v : Nat) (e : String) (tid2 : Nat) (h : tid ≠ tid2) :
    countActive (deactivateTenantVersion ts tid v e) tid2 =
      countActive ts tid2 := by
  rw [countActive_eq_countP, countActive_eq_countP, deactivateTenantVersion,
    List.countP_map]
  refine List.countP_congr ?_
  intro r _
  simp only [Function.comp_apply]
  by_cases hc : (r.tenant_id == tid && r.tenant_version == v &&
      r.status.isActive) = true
  · have hid : r.tenant_id = tid := by
      simp only [Bool.and_eq_true, beq_iff_eq] at hc
      exact hc.1.1
    rw [if_pos hc]
    simp [Status.isActive, hid, h]
  · rw [if_neg hc]

theorem countActive_deactivateVersion_zero (ts : List TenantRow)
    (tid v : Nat) (e : String)
    (hall : ∀ r ∈ ts, r.tenant_id = tid → r.status.isActive = true →
      r.tenant_version = v) :
    countActive (deactivateTenantVersion ts tid v e) tid = 0 := by
  rw [countActive_eq_countP, deactivateTenantVersion, List.countP_map]
  refine List.countP_eq_zero.mpr ?_
  intro r hmem hr
  simp only [Function.comp_apply] at hr
  by_cases hc : (r.tenant_id == tid && r.tenant_version == v &&
      r.status.isActive) = true
  · rw [if_pos hc] at hr
    simp [Status.isActive] at hr
  · rw [if_neg hc] at hr
    simp only [Bool.and_eq_true, beq_iff_eq] at hr
    exact hc (by simp [hr.1, hr.2, hall r hmem hr.1 hr.2])

theorem singleRow_eq {α : Type} (l : List α) (r : α)
    (h : singleRow l = some r) : l = [r] := by
  unfold singleRow at h
  match l, h with
  | [a], h =>
    have : a = r := by simpa using h
    rw [this]

theorem maxByVersion_mem (l : List TenantRow) (r : TenantRow)
    (h : maxByVersion l = some r) : r ∈ l := by
  induction l with
  | nil => simp [maxByVersion] at h
  | cons a as ih =>
    unfold maxByVersion at h
    match hm : maxByVersion as, h with
    | none, h =>
      simp only at h
      have : a = r := by simpa using h
      simp [this]
    | some b, h =>
      simp only at h
      split at h
      · have : a = r := by simpa using h
        simp [this]
      · have hbr : b = r := by simpa using h
        exact List.mem_cons_of_mem a (ih (hbr ▸ hm))

theorem activeTenantRows_singleton (ts : List TenantRow) (tid : Nat)
    (cur : TenantRow) (hc : countActive ts tid ≤ 1)
    (hmem : cur ∈ activeTenantRows ts tid) :
    activeTenantRows ts tid = [cur] := by
  unfold countActive at hc
  match hl : activeTenantRows ts tid, hc, hmem with
  | [], _, hmem => simp at hmem
  | [a], _, hmem =>
    simp at hmem
    simp [hmem]
  | a :: b :: l, hc2, _ => simp at hc2

theorem mem_activeTenantRows (ts : List TenantRow) (tid : Nat)
    (r : TenantRow) (h : r ∈ activeTenantRows ts tid) :
    r ∈ ts ∧ r.tenant_id = tid ∧ r.status.isActive = true := by
  unfold activeTenantRows at h
  have := List.mem_filter.mp h
  refine ⟨this.1, ?_, ?_⟩
  · have h2 := this.2
    simp only [Bool.and_eq_true, beq_iff_eq] at h2
    exact h2.1
  · have h2 := this.2
    simp only [Bool.and_eq_true, beq_iff_eq] at h2
    exact h2.2

theorem activeTenantRows_singleton_props (ts : List TenantRow) (tid : Nat)
    (r : TenantRow) (h : activeTenantRows ts tid = [r]) :
    r ∈ ts ∧ r.tenant_id = tid ∧ r.status.isActive = true :=
  mem_activeTenantRows ts tid r (by rw [h]; simp)

theorem countActive_single (r : TenantRow) (tid : Nat) :
    countActive [r] tid ≤ 1 := by
  unfold countActive activeTenantRows
  by_cases h : (r.tenant_id == tid && r.status.isActive) = true <;>
    simp [List.filter, h]

theorem countActive_single_other (r : TenantRow) (tid : Nat)
    (h : r.tenant_id ≠ tid) : countActive [r] tid = 0 := by
  unfold countActive activeTenantRows
  have hb : (r.tenant_id == tid && r.status.isActive) = false := by
    simp [h]
  simp [List.filter, hb]

theorem le_foldr_max (l : List Nat) (a : Nat) (h : a ∈ l) :
    a ≤ l.foldr max 0 := by
  induction l with
  | nil => simp at h
  | cons b bs ih =>
    rcases List.mem_cons.mp h with rfl | h2
    · exact le_max_left _ _
    · exact le_trans (ih h2) (le_max_right _ _)

theorem countActive_freshId (ts : List TenantRow) :
    countActive ts (freshId (ts.map (·.tenant_id))) = 0 := by
  rw [countActive_eq_countP]
  refine List.countP_eq_zero.mpr ?_
  intro r hmem hr
  simp only [Bool.and_eq_true, beq_iff_eq] at hr
  have : r.tenant_id ≤ (ts.map (·.tenant_id)).foldr max 0 :=
    le_foldr_max _ _ (List.mem_map.mpr ⟨r, hmem, rfl⟩)
  unfold freshId at hr
  omega

/-- A "bump": deactivate every active row of `tid`, then insert one new
row belonging to `tid`.  Preserves active-uniqueness. -/
theorem activeUnique_bump (ts : List TenantRow) (tid : Nat) (e : String)
    (newRow : TenantRow) (hAU : ActiveUnique ts)
    (hid : newRow.tenant_id = tid) :
    ActiveUnique (deactivateTenantActives ts tid e ++ [newRow]) := by
  intro tid2
  rw [countActive_append]
  by_cases h : tid = tid2
  · subst h
    rw [countActive_deactivateActives_self]
    simpa using countActive_single newRow tid
  · rw [countActive_deactivateActives_other ts tid tid2 e h,
      countActive_single_other newRow tid2 (by rw [hid]; exact h)]
    simpa using hAU tid2

/-- Deactivating one specific version and inserting a copy preserves
active-uniqueness when that version was the only active row. -/
theorem activeUnique_versioned (ts : List TenantRow) (tid : Nat)
    (cur : TenantRow) (e : String) (newRow : TenantRow)
    (hAU : ActiveUnique ts) (hsingle : activeTenantRows ts tid = [cur])
    (hid : newRow.tenant_id = tid) :
    ActiveUnique (deactivateTenantVersion ts tid cur.tenant_version e ++
      [newRow]) := by
  intro tid2
  rw [countActive_append]
  by_cases h : tid = tid2
  · subst h
    rw [countActive_deactivateVersion_zero]
    · simpa using countActive_single newRow tid
    · intro r hmem hrid hract
      have hrmem : r ∈ activeTenantRows ts tid := by
        unfold activeTenantRows
        exact List.mem_filter.mpr ⟨hmem, by simp [hrid, hract]⟩
      rw [hsingle] at hrmem
      simp at hrmem
      rw [hrmem]
  · rw [countActive_deactivateVersion_other ts tid _ e tid2 h,
      countActive_single_other newRow tid2 (by rw [hid]; exact h)]
    simpa using hAU tid2

theorem countActive_map_if_preserve (ts : List TenantRow)
    (p : TenantRow → Bool) (f : TenantRow → TenantRow)
    (hf : ∀ r, (f r).tenant_id = r.tenant_id ∧ (f r).status = r.status)
    (tid : Nat) :
    countActive (ts.map fun r => if p r then f r else r) tid =
      countActive ts tid := by
  rw [countActive_eq_countP, countActive_eq_countP, List.countP_map]
  refine List.countP_congr ?_
  intro r _
  simp only [Function.comp_apply]
  by_cases hc : p r = true
  · rw [if_pos hc, (hf r).1, (hf r).2]
  · rw [if_neg hc]

theorem activeUnique_append_fresh (ts : List TenantRow)
    (newRow : TenantRow) (hAU : ActiveUnique ts)
    (hid : newRow.tenant_id = freshId (ts.map (·.tenant_id))) :
    ActiveUnique (ts ++ [newRow]) := by
  intro tid
  rw [countActive_append]
  by_cases ht : freshId (ts.map (·.tenant_id)) = tid
  · rw [← ht, countActive_freshId]
    simpa using countActive_single newRow _
  · rw [countActive_single_other newRow tid (by rw [hid]; exact ht)]
    simpa using hAU tid

theorem au_createTenant (env : Env) (f : TenantFields) (db : DB)
    (h : ActiveUnique db.tenants) :
    ActiveUnique (createTenant env f db).2.tenants := by
  unfold createTenant
  split
  · exact h
  · exact activeUnique_append_fresh db.tenants _ h rfl

theorem au_reviseTenant (env : Env) (id : Nat) (inPlace : Bool)
    (f : TenantFields) (db : DB) (h : ActiveUnique db.tenants) :
    ActiveUnique (reviseTenant env id inPlace f db).2.tenants := by
  unfold reviseTenant
  split
  · exact h
  · rename_i cur hcur
    have hmem := maxByVersion_mem _ _ hcur
    have hsingle := activeTenantRows_singleton db.tenants id cur (h id) hmem
    have hprops := activeTenantRows_singleton_props db.tenants id cur hsingle
    split
    · split
      · split
        · exact h
        · dsimp only
          intro tid
          rw [countActive_map_if_preserve]
          · exact h tid
          · intro r
            exact ⟨rfl, rfl⟩
      · dsimp only
        intro tid
        rw [countActive_map_if_preserve]
        · exact h tid
        · intro r
          exact ⟨rfl, rfl⟩
    · dsimp only
      split <;>
        first
          | exact fun tid =>
              le_trans (countActive_deactivateVersion_le _ _ _ _ _) (h tid)
          | exact activeUnique_versioned db.tenants id cur _ _ h hsingle
              hprops.2.1

theorem au_softDeleteTenant (env : Env) (id : Nat) (db : DB)
    (h : ActiveUnique db.tenants) :
    ActiveUnique (softDeleteTenant env id db).2.tenants := by
  unfold softDeleteTenant
  split
  · exact h
  · dsimp only
    intro tid
    exact le_trans (countActive_deactivateVersion_le _ _ _ _ _) (h tid)

theorem au_createPowerMeter (env : Env) (tenant_id : Nat)
    (start_date : Option String) (initial_reading : Option Int)
    (f : MeterFields) (db : DB) (h : ActiveUnique db.tenants) :
    ActiveUnique (createPowerMeter env tenant_id start_date initial_reading
      f db).2.tenants := by
  unfold createPowerMeter
  dsimp only
  split
  · exact h
  · split
    · exact h
    · rename_i tenant hsr
      have hprops := activeTenantRows_singleton_props db.tenants tenant_id
        tenant (singleRow_eq _ _ hsr)
      split
      · exact activeUnique_bump db.tenants tenant_id _ _ h hprops.2.1
      · split
        · exact activeUnique_bump db.tenants tenant_id _ _ h hprops.2.1
        · exact activeUnique_bump db.tenants tenant_id _ _ h hprops.2.1

theorem au_updatePowerMeter (env : Env) (id : Nat) (inPlace : Bool)
    (f : MeterFields) (db : DB) (h : ActiveUnique db.tenants) :
    ActiveUnique (updatePowerMeter env id inPlace f db).2.tenants := by
  unfold updatePowerMeter
  dsimp only
  repeat' split
  all_goals exact h

theorem au_deletePowerMeter (env : Env) (id : Nat) (db : DB)
    (h : ActiveUnique db.tenants) :
    ActiveUnique (deletePowerMeter env id db).2.tenants := by
  unfold deletePowerMeter
  dsimp only
  split
  · exact h
  · rename_i meter _
    split
    · exact h
    · rename_i tenant hsr
      have hprops := activeTenantRows_singleton_props db.tenants
        meter.tenant_id tenant (singleRow_eq _ _ hsr)
      exact activeUnique_bump db.tenants meter.tenant_id _ _ h hprops.2.1

theorem au_createMonthlyReading (env : Env) (tenant_id meter_id : Nat)
    (month : Option String) (pr cr rp : Option Int) (db : DB)
    (h : ActiveUnique db.tenants) :
    ActiveUnique (createMonthlyReading env tenant_id meter_id month
      pr cr rp db).2.tenants := by
  unfold createMonthlyReading
  dsimp only
  repeat' split
  all_goals exact h

theorem au_createRent (env : Env) (tenant_id : Nat)
    (start_date : Option String) (f : HistFields) (db : DB)
    (h : ActiveUnique db.tenants) :
    ActiveUnique (createRent env tenant_id start_date f db).2.tenants := by
  unfold createRent
  dsimp only
  split
  · exact h
  · split
    · exact h
    · rename_i tenant hsr
      have hprops := activeTenantRows_singleton_props db.tenants tenant_id
        tenant (singleRow_eq _ _ hsr)
      exact activeUnique_bump db.tenants tenant_id _ _ h hprops.2.1

theorem au_updateRent (env : Env) (id : Nat) (inPlace : Bool)
    (f : HistFields) (db : DB) (h : ActiveUnique db.tenants) :
    ActiveUnique (updateRent env id inPlace f db).2.tenants := by
  unfold updateRent
  dsimp only
  repeat' split
  all_goals exact h

theorem au_deleteRent (env : Env) (id : Nat) (db : DB)
    (h : ActiveUnique db.tenants) :
    ActiveUnique (deleteRent env id db).2.tenants := by
  unfold deleteRent
  dsimp only
  split
  · exact h
  · rename_i rent _
    split
    · exact h
    · rename_i tenant hsr
      have hprops := activeTenantRows_singleton_props db.tenants
        rent.tenant_id tenant (singleRow_eq _ _ hsr)
      exact activeUnique_bump db.tenants rent.tenant_id _ _ h hprops.2.1

theorem au_createWater (env : Env) (tenant_id : Nat)
    (start_date : Option String) (f : HistFields) (db : DB)
    (h : ActiveUnique db.tenants) :
    ActiveUnique (createWater env tenant_id start_date f db).2.tenants := by
  unfold createWater
  dsimp only
  split
  · exact h
  · split
    · exact h
    · rename_i tenant hsr
      have hprops := activeTenantRows_singleton_props db.tenants tenant_id
        tenant (singleRow_eq _ _ hsr)
      split
      · exact h
      · exact activeUnique_bump db.tenants tenant_id _ _ h hprops.2.1

theorem au_updateWater (env : Env) (id : Nat) (inPlace : Bool)
    (f : HistFields) (db : DB) (h : ActiveUnique db.tenants) :
    ActiveUnique (updateWater env id inPlace f db).2.tenants := by
  unfold updateWater
  dsimp only
  repeat' split
  all_goals exact h

theorem au_deleteWater (env : Env) (id : Nat) (db : DB)
    (h : ActiveUnique db.tenants) :
    ActiveUnique (deleteWater env id db).2.tenants := by
  unfold deleteWater
  dsimp only
  split
  · exact h
  · rename_i water _
    split
    · exact h
    · rename_i tenant hsr
      have hprops := activeTenantRows_singleton_props db.tenants
        water.tenant_id tenant (singleRow_eq _ _ hsr)
      split
      · exact h
      · exact activeUnique_bump db.tenants water.tenant_id _ _ h hprops.2.1

theorem au_createMaintenance (env : Env) (tenant_id : Nat)
    (start_date : Option String) (f : HistFields) (db : DB)
    (h : ActiveUnique db.tenants) :
    ActiveUnique (createMaintenance env tenant_id start_date f
      db).2.tenants := by
  unfold createMaintenance
  dsimp only
  split
  · exact h
  · split
    · exact h
    · rename_i tenant hsr
      have hprops := activeTenantRows_singleton_props db.tenants tenant_id
        tenant (singleRow_eq _ _ hsr)
      split
      · exact h
      · exact activeUnique_bump db.tenants tenant_id _ _ h hprops.2.1

theorem au_updateMaintenance (env : Env) (id : Nat) (inPlace : Bool)
    (f : HistFields) (db : DB) (h : ActiveUnique db.tenants) :
    ActiveUnique (updateMaintenance env id inPlace f db).2.tenants := by
  unfold updateMaintenance
  dsimp only
  repeat' split
  all_goals exact h

theorem au_deleteMaintenance (env : Env) (id : Nat) (db : DB)
    (h : ActiveUnique db.tenants) :
    ActiveUnique (deleteMaintenance env id db).2.tenants := by
  unfold deleteMaintenance
  dsimp only
  split
  · exact h
  · rename_i maint _
    split
    · exact h
    · rename_i tenant hsr
      have hprops := activeTenantRows_singleton_props db.tenants
        maint.tenant_id tenant (singleRow_eq _ _ hsr)
      split
      · exact h
      · exact activeUnique_bump db.tenants maint.tenant_id _ _ h hprops.2.1

/-! ### C1 — at most one active tenant row per tenant_id -/

/-- C1: for every tenant_id, at most one tenants row is active after
any mutating operation completes — tenant create / in-place or
versioned update / soft delete, and every dependent-record
create/update/delete — assuming the invariant held before and
operations run sequentially (each conjunct is a single sequential
operation on the store). -/
theorem C1_active_unique_preserved (env : Env) (db : DB)
    (h : ActiveUnique db.tenants) :
    (∀ f, ActiveUnique (createTenant env f db).2.tenants) ∧
    (∀ id ip f, ActiveUnique (reviseTenant env id ip f db).2.tenants) ∧
    (∀ id, ActiveUnique (softDeleteTenant env id db).2.tenants) ∧
    (∀ tid sd ir f,
      ActiveUnique (createPowerMeter env tid sd ir f db).2.tenants) ∧
    (∀ id ip f, ActiveUnique (updatePowerMeter env id ip f db).2.tenants) ∧
    (∀ id, ActiveUnique (deletePowerMeter env id db).2.tenants) ∧
    (∀ tid mid mo pr cr rp,
      ActiveUnique (createMonthlyReading env tid mid mo pr cr rp
        db).2.tenants) ∧
    (∀ tid sd f, ActiveUnique (createRent env tid sd f db).2.tenants) ∧
    (∀ id ip f, ActiveUnique (updateRent env id ip f db).2.tenants) ∧
    (∀ id, ActiveUnique (deleteRent env id db).2.tenants) ∧
    (∀ tid sd f, ActiveUnique (createWater env tid sd f db).2.tenants) ∧
    (∀ id ip f, ActiveUnique (updateWater env id ip f db).2.tenants) ∧
    (∀ id, ActiveUnique (deleteWater env id db).2.tenants) ∧
    (∀ tid sd f,
      ActiveUnique (createMaintenance env tid sd f db).2.tenants) ∧
    (∀ id ip f, ActiveUnique (updateMaintenance env id ip f db).2.tenants) ∧
    (∀ id, ActiveUnique (deleteMaintenance env id db).2.tenants) := by
  refine ⟨fun f => au_createTenant env f db h,
    fun id ip f => au_reviseTenant env id ip f db h,
    fun id => au_softDeleteTenant env id db h,
    fun tid sd ir f => au_createPowerMeter env tid sd ir f db h,
    fun id ip f => au_updatePowerMeter env id ip f db h,
    fun id => au_deletePowerMeter env id db h,
    fun tid mid mo pr cr rp =>
      au_createMonthlyReading env tid mid mo pr cr rp db h,
    fun tid sd f => au_createRent env tid sd f db h,
    fun id ip f => au_updateRent env id ip f db h,
    fun id => au_deleteRent env id db h,
    fun tid sd f => au_createWater env tid sd f db h,
    fun id ip f => au_updateWater env id ip f db h,
    fun id => au_deleteWater env id db h,
    fun tid sd f => au_createMaintenance env tid sd f db h,
    fun id ip f => au_updateMaintenance env id ip f db h,
    fun id => au_deleteMaintenance env id db h⟩

/-- C1, witness: the theorem applied to a store holding one active
tenant, for a power-meter creation on that tenant. -/
theorem C1_active_unique_witness :
    ActiveUnique (createPowerMeter ⟨330, ⟨⟨2025, 1, 1⟩, 0⟩⟩ 1
      (some "2024-03-15") (some 100) {} ⟨[⟨1, 1, .active, "t", "2024-01-01",
        none, some 0, none, false, false⟩], [], [], [], [], []⟩).2.tenants :=
  (C1_active_unique_preserved ⟨330, ⟨⟨2025, 1, 1⟩, 0⟩⟩
    ⟨[⟨1, 1, .active, "t", "2024-01-01", none, some 0, none, false, false⟩],
      [], [], [], [], []⟩
    (by
      intro tid
      by_cases h : tid = 1
      · simp [countActive, activeTenantRows, Status.isActive, h]
      · have hb : ((1 : Nat) == tid) = false := by
          simp [Ne.symm h]
        simp [countActive, activeTenantRows, Status.isActive, hb])
    ).2.2.2.1 1 (some "2024-03-15") (some 100) {}

/-! ### C2 — power meter creation -/

/-- C2, counterexample: creating a meter with `start_date=2024-03-15`,
`initial_reading=100` on an active tenant seeds the baseline reading
with month `2024-02-15` — the same day-of-month one calendar month
earlier (`setMonth(getMonth() - 1)` of the raw input) — not the
first-of-month `2024-02-01` the claim states. -/
theorem C2_counterexample_baseline_month :
    ((createPowerMeter envW 1 (some "2024-03-15") (some 100) {}
        ⟨[tenantW], [], [], [], [], []⟩).2.monthly_readings.map (·.month)) =
      ["2024-02-15"] ∧ ("2024-02-15" : String) ≠ "2024-02-01" := by
  constructor
  · rfl
  · decide

/-- C2 (amended): on an IST server, creating a Power Meter with
`start_date=2024-03-15` and `initial_reading=100` on a tenant whose
single active row has `power_meter_count = c` succeeds and produces a
meter row with `start_date=2024-03-01`, a seeded Monthly Reading row
with month `2024-02-15` (one calendar month before the raw input,
day-of-month preserved — not normalized to the 1st) and
`previous_reading = current_reading = 100`, and a new tenant row whose
`power_meter_count` and `tenant_version` are each exactly one greater
than before. -/
theorem C2_meter_create_seed (now_ : Instant) (db : DB) (tid : Nat)
    (t : TenantRow) (c : Nat)
    (hsingle : activeTenantRows db.tenants tid = [t])
    (hc : t.power_meter_count = some c) :
    ∃ m tr rr,
      (createPowerMeter ⟨330, now_⟩ tid (some "2024-03-15") (some 100) {}
        db).1 = .ok (m, tr, rr) ∧
      m.start_date = "2024-03-01" ∧
      rr.month = "2024-02-15" ∧
      rr.previous_reading = some 100 ∧
      rr.current_reading = some 100 ∧
      rr.meter_id = m.meter_id ∧
      tr.tenant_id = t.tenant_id ∧
      tr.tenant_version = t.tenant_version + 1 ∧
      tr.power_meter_count = some (c + 1) ∧
      m ∈ (createPowerMeter ⟨330, now_⟩ tid (some "2024-03-15") (some 100)
        {} db).2.power_meters ∧
      rr ∈ (createPowerMeter ⟨330, now_⟩ tid (some "2024-03-15") (some 100)
        {} db).2.monthly_readings ∧
      tr ∈ (createPowerMeter ⟨330, now_⟩ tid (some "2024-03-15") (some 100)
        {} db).2.tenants := by
  have hp : jsParseDate "2024-03-15" = some ⟨2024, 3, 15⟩ := by decide
  have hg : getMonthStart ⟨330, now_⟩ (some "2024-03-15") =
      .ok "2024-03-01" := by
    simp [getMonthStart, hp]
    rw [monthStartOf_ist 2024 3 15 (by omega) (by omega) now_]
    decide
  have hk : setMonthMinus1Key ⟨330, now_⟩ ⟨⟨2024, 3, 15⟩, 0⟩ =
      "2024-02-15" := by
    unfold setMonthMinus1Key
    dsimp only
    decide
  unfold createPowerMeter
  rw [hg, hsingle]
  dsimp only [singleRow]
  rw [hp]
  dsimp only
  rw [hk]
  refine ⟨_, _, _, rfl, rfl, rfl, rfl, rfl, rfl, rfl, ?_, ?_, ?_, ?_⟩
  all_goals simp [hc]

/-- C2, witness: the amended theorem applied to a one-tenant store. -/
theorem C2_meter_create_witness :
    ∃ m tr rr,
      (createPowerMeter ⟨330, ⟨⟨2025, 1, 1⟩, 0⟩⟩ 1 (some "2024-03-15")
        (some 100) {} ⟨[tenantW], [], [], [], [], []⟩).1 = .ok (m, tr, rr) ∧
      m.start_date = "2024-03-01" ∧
      rr.month = "2024-02-15" ∧
      rr.previous_reading = some 100 ∧
      rr.current_reading = some 100 ∧
      rr.meter_id = m.meter_id ∧
      tr.tenant_id = tenantW.tenant_id ∧
      tr.tenant_version = tenantW.tenant_version + 1 ∧
      tr.power_meter_count = some (0 + 1) ∧
      m ∈ (createPowerMeter ⟨330, ⟨⟨2025, 1, 1⟩, 0⟩⟩ 1 (some "2024-03-15")
        (some 100) {} ⟨[tenantW], [], [], [], [], []⟩).2.power_meters ∧
      rr ∈ (createPowerMeter ⟨330, ⟨⟨2025, 1, 1⟩, 0⟩⟩ 1 (some "2024-03-15")
        (some 100) {} ⟨[tenantW], [], [], [], [], []⟩).2.monthly_readings ∧
      tr ∈ (createPowerMeter ⟨330, ⟨⟨2025, 1, 1⟩, 0⟩⟩ 1 (some "2024-03-15")
        (some 100) {} ⟨[tenantW], [], [], [], [], []⟩).2.tenants :=
  C2_meter_create_seed ⟨⟨2025, 1, 1⟩, 0⟩ ⟨[tenantW], [], [], [], [], []⟩ 1
    tenantW 0 rfl rfl

/-! ### C3 — monthly reading chaining -/

theorem shiftMinutes_zero_0 (x : YMD) : shiftMinutes ⟨x, 0⟩ 0 = ⟨x, 0⟩ := by
  unfold shiftMinutes
  norm_num

theorem prevMonthKey_utc (now_ : Instant) (ms : String) (y : Int)
    (m d : Nat) (h : jsParseDate ms = some ⟨y, m, d⟩) :
    prevMonthKey ⟨0, now_⟩ ms =
      .ok (formatYMD (if m = 1 then ⟨y - 1, 12, 1⟩ else ⟨y, m - 1, 1⟩)) := by
  unfold prevMonthKey
  rw [h]
  dsimp only
  rw [show -(0 : Int) = 0 from rfl]
  rw [shiftMinutes_zero_0]
  rw [shiftMinutes_zero_0]

/-- C3, counterexample: on an IST server (tz = +330, the configuration
the spec pins elsewhere), a reading request for month `M = 2024-03-01`
fails with Conflict and inserts nothing even though the reading row for
`M - 1` (month `2024-02-01`) exists for the meter: the lookup key the
code computes — `new Date(2024, 1, 1)` local, rendered via
`toISOString()` — is `"2024-01-31"`, not `"2024-02-01"`. -/
theorem C3_counterexample_ist :
    readingW.month = "2024-02-01" ∧ readingW.meter_id = 1 ∧
    readingW ∈ (⟨[tenantW], [meterW], [readingW], [], [], []⟩ :
      DB).monthly_readings ∧
    prevMonthKey envW "2024-03-01" = .ok "2024-01-31" ∧
    (createMonthlyReading envW 1 1 (some "2024-03-01") none (some 150)
      none ⟨[tenantW], [meterW], [readingW], [], [], []⟩).1 =
      .error .conflict ∧
    (createMonthlyReading envW 1 1 (some "2024-03-01") none (some 150)
      none ⟨[tenantW], [meterW], [readingW], [], [], []⟩).2 =
      ⟨[tenantW], [meterW], [readingW], [], [], []⟩ := by
  refine ⟨rfl, rfl, by simp, by decide, by decide, by decide⟩

/-- C3 (amended): on a UTC server, a Monthly Reading create request for
a parseable month `M` on an active tenant and active meter looks up the
previous-month row under the key "first day of the calendar month
before `M`" (`YYYY-MM-DD`).  If no row with that key exists for the
meter (`.single()` finds none), the request fails with Conflict and
inserts nothing; if exactly one exists, the inserted row's
`previous_reading` equals that row's `current_reading`, and a
caller-supplied `previous_reading` never influences the result. -/
theorem C3_reading_chain (now_ : Instant) (db : DB) (tid mid : Nat)
    (t : TenantRow) (mrow : MeterRow) (ms : String) (y : Int) (m d : Nat)
    (pr cr rp : Option Int)
    (ht : activeTenantRows db.tenants tid = [t])
    (hm : db.power_meters.filter
      (fun r => r.meter_id == mid && r.status.isActive) = [mrow])
    (hms : jsParseDate ms = some ⟨y, m, d⟩) :
    (prevMonthKey ⟨0, now_⟩ ms =
      .ok (formatYMD (if m = 1 then ⟨y - 1, 12, 1⟩ else ⟨y, m - 1, 1⟩))) ∧
    (singleRow (db.monthly_readings.filter (fun r => r.meter_id == mid &&
        r.month == formatYMD (if m = 1 then ⟨y - 1, 12, 1⟩
          else ⟨y, m - 1, 1⟩))) = none →
      createMonthlyReading ⟨0, now_⟩ tid mid (some ms) pr cr rp db =
        (.error .conflict, db)) ∧
    (∀ prev : ReadingRow,
      singleRow (db.monthly_readings.filter (fun r => r.meter_id == mid &&
        r.month == formatYMD (if m = 1 then ⟨y - 1, 12, 1⟩
          else ⟨y, m - 1, 1⟩))) = some prev →
      ∃ row : ReadingRow,
        (createMonthlyReading ⟨0, now_⟩ tid mid (some ms) pr cr rp db).1 =
          .ok row ∧
        row.previous_reading = prev.current_reading ∧
        row.current_reading = cr ∧
        row.month = ms ∧
        (createMonthlyReading ⟨0, now_⟩ tid mid (some ms) pr cr rp
          db).2.monthly_readings = db.monthly_readings ++ [row]) ∧
    (∀ pr2 : Option Int,
      createMonthlyReading ⟨0, now_⟩ tid mid (some ms) pr2 cr rp db =
        createMonthlyReading ⟨0, now_⟩ tid mid (some ms) pr cr rp db) := by
  have hk := prevMonthKey_utc now_ ms y m d hms
  have hts : singleRow (activeTenantRows db.tenants tid) = some t := by
    rw [ht]
    rfl
  have hmet : singleRow (db.power_meters.filter
      (fun r => r.meter_id == mid && r.status.isActive)) = some mrow := by
    rw [hm]
    rfl
  refine ⟨hk, ?_, ?_, fun pr2 => rfl⟩
  · intro h0
    unfold createMonthlyReading
    rw [hts]
    dsimp only
    rw [hmet]
    dsimp only
    rw [hk]
    dsimp only
    rw [h0]
  · intro prev hprev
    unfold createMonthlyReading
    rw [hts]
    dsimp only
    rw [hmet]
    dsimp only
    rw [hk]
    dsimp only
    rw [hprev]
    dsimp only
    exact ⟨_, rfl, rfl, rfl, rfl, rfl⟩

/-- C3, witness: the amended theorem on a store with the `2024-02-01`
reading present, requesting month `2024-03-01` on a UTC server. -/
theorem C3_reading_chain_witness :
    ∃ row : ReadingRow,
      (createMonthlyReading ⟨0, ⟨⟨2025, 1, 1⟩, 0⟩⟩ 1 1 (some "2024-03-01")
        none (some 150) none
        ⟨[tenantW], [meterW], [readingW], [], [], []⟩).1 = .ok row ∧
      row.previous_reading = readingW.current_reading ∧
      row.current_reading = some 150 ∧
      row.month = "2024-03-01" ∧
      (createMonthlyReading ⟨0, ⟨⟨2025, 1, 1⟩, 0⟩⟩ 1 1 (some "2024-03-01")
        none (some 150) none
        ⟨[tenantW], [meterW], [readingW], [], [], []⟩).2.monthly_readings =
        (⟨[tenantW], [meterW], [readingW], [], [], []⟩ :
          DB).monthly_readings ++ [row] :=
  (C3_reading_chain ⟨⟨2025, 1, 1⟩, 0⟩
    ⟨[tenantW], [meterW], [readingW], [], [], []⟩ 1 1 tenantW meterW
    "2024-03-01" 2024 3 1 none (some 150) none rfl rfl (by decide)).2.2.1
    readingW (by decide)

/-! ### C5 — versioned tenant revision -/

theorem active_rows_all_eq (ts : List TenantRow) (id : Nat) (r : TenantRow)
    (hsingle : activeTenantRows ts id = [r]) :
    ∀ x ∈ ts, x.tenant_id = id → x.status.isActive = true → x = r := by
  intro x hx hid hact
  have hmem : x ∈ activeTenantRows ts id :=
    List.mem_filter.mpr ⟨hx, by simp [hid, hact]⟩
  rw [hsingle] at hmem
  simpa using hmem

theorem activeTenantRows_deactVersion_append (ts : List TenantRow)
    (id : Nat) (r nr : TenantRow) (e : String)
    (hsingle : activeTenantRows ts id = [r])
    (hnid : nr.tenant_id = id) (hnact : nr.status.isActive = true) :
    activeTenantRows
      (deactivateTenantVersion ts id r.tenant_version e ++ [nr]) id =
      [nr] := by
  have h0 : countActive (deactivateTenantVersion ts id r.tenant_version e)
      id = 0 :=
    countActive_deactivateVersion_zero ts id r.tenant_version e
      (fun x hx hxid hxact => by
        rw [active_rows_all_eq ts id r hsingle x hx hxid hxact])
  have hnil : activeTenantRows
      (deactivateTenantVersion ts id r.tenant_version e) id = [] :=
    List.length_eq_zero.mp h0
  unfold activeTenantRows at *
  rw [List.filter_append, hnil]
  simp [hnid, hnact]

/-- C5: on a tenant whose single active row has version `v`,
`ReviseTenant(id, {}, inPlace=false)` succeeds with mode `versioned`
and yields a new row with `tenant_version = v + 1`, `status = active`,
`end_date = null`; the old row is set inactive with `end_date` equal to
the current month's start; and reading the entity back (the
highest-version active row) returns the new row. -/
theorem C5_revise_versioned (env : Env) (db : DB) (id : Nat)
    (r : TenantRow) (hAU : ActiveUnique db.tenants) (hmem : r ∈ db.tenants)
    (hid : r.tenant_id = id) (hact : r.status.isActive = true) :
    ∃ nr : TenantRow,
      (reviseTenant env id false {} db).1 = .ok (.versioned, nr) ∧
      nr.tenant_version = r.tenant_version + 1 ∧
      nr.status = .active ∧
      nr.end_date = none ∧
      (reviseTenant env id false {} db).2.tenants =
        deactivateTenantVersion db.tenants id r.tenant_version
          (getMonthStartNow env) ++ [nr] ∧
      { r with status := .inactive,
               end_date := some (getMonthStartNow env) } ∈
        (reviseTenant env id false {} db).2.tenants ∧
      maxByVersion (activeTenantRows
        (reviseTenant env id false {} db).2.tenants id) = some nr := by
  have hr : r ∈ activeTenantRows db.tenants id :=
    List.mem_filter.mpr ⟨hmem, by simp [hid, hact]⟩
  have hsingle : activeTenantRows db.tenants id = [r] :=
    activeTenantRows_singleton db.tenants id r (hAU id) hr
  have hmax : maxByVersion (activeTenantRows db.tenants id) = some r := by
    rw [hsingle]
    rfl
  unfold reviseTenant
  rw [hmax]
  simp only [Bool.false_eq_true, if_false, Option.getD_none]
  refine ⟨_, rfl, rfl, rfl, rfl, rfl, ?_, ?_⟩
  · refine List.mem_append.mpr (Or.inl ?_)
    unfold deactivateTenantVersion
    refine List.mem_map.mpr ⟨r, hmem, ?_⟩
    rw [if_pos (by simp [hid, hact])]
  · rw [activeTenantRows_deactVersion_append db.tenants id r
      { r with tenant_version := r.tenant_version + 1,
               status := Status.active,
               start_date := getMonthStartNow env, end_date := none }
      (getMonthStartNow env) hsingle hid rfl]
    rfl

/-- C5, witness: the theorem on a one-tenant store. -/
theorem C5_revise_versioned_witness :
    ∃ nr : TenantRow,
      (reviseTenant envW 1 false {} ⟨[tenantW], [], [], [], [], []⟩).1 =
        .ok (.versioned, nr) ∧
      nr.tenant_version = tenantW.tenant_version + 1 ∧
      nr.status = .active ∧
      nr.end_date = none ∧
      (reviseTenant envW 1 false {} ⟨[tenantW], [], [], [], [], []⟩).2.tenants =
        deactivateTenantVersion [tenantW] 1 tenantW.tenant_version
          (getMonthStartNow envW) ++ [nr] ∧
      { tenantW with status := .inactive,
                     end_date := some (getMonthStartNow envW) } ∈
        (reviseTenant envW 1 false {}
          ⟨[tenantW], [], [], [], [], []⟩).2.tenants ∧
      maxByVersion (activeTenantRows
        (reviseTenant envW 1 false {}
          ⟨[tenantW], [], [], [], [], []⟩).2.tenants 1) = some nr :=
  C5_revise_versioned envW ⟨[tenantW], [], [], [], [], []⟩ 1 tenantW
    (by
      intro tid
      by_cases h : tid = 1
      · simp [countActive, activeTenantRows, Status.isActive, tenantW, h]
      · have hb : ((1 : Nat) == tid) = false := by
          simp [Ne.symm h]
        simp [countActive, activeTenantRows, Status.isActive, tenantW, hb])
    (by simp) rfl rfl

/-! ### C6 — in-place meter start_date update -/

theorem shiftMinutes_330_neg330 (x : YMD) :
    shiftMinutes ⟨x, 330⟩ (-330) = ⟨x, 0⟩ := by
  unfold shiftMinutes
  norm_num

theorem setMonthMinus1Key_ist_first (y : Int) (m : Nat) (now_ : Instant) :
    setMonthMinus1Key ⟨330, now_⟩ ⟨⟨y, m, 1⟩, 0⟩ =
      formatYMD (if m = 1 then ⟨y - 1, 12, 1⟩ else ⟨y, m - 1, 1⟩) := by
  unfold setMonthMinus1Key
  dsimp only
  rw [shiftMinutes_zero_330]
  dsimp only
  rw [if_pos (le_trans (by omega)
    (daysInMonth_pos (if m = 1 then y - 1 else y) (if m = 1 then 12
      else m - 1)))]
  rw [shiftMinutes_330_neg330]
  by_cases hm : m = 1
  · simp only [if_pos hm]
  · simp only [if_neg hm]

/-- C6: an in-place Power Meter update changing `start_date` (on an IST
server, with a parseable new date) succeeds only when exactly one
`monthly_readings` row references the meter: with 0 or 2+ rows it fails
with Conflict and the store is unchanged; on success the meter takes
the normalized `start_date` and the single baseline reading row is
rewritten to the first day of the month preceding the new `start_date`
with `previous_reading = current_reading` = the meter's (possibly
updated) `initial_reading`.  Supplying `start_date` on a versioned
(non-in-place) update always fails and changes nothing. -/
theorem C6_meter_inplace_gate (now_ : Instant) (db : DB) (id : Nat)
    (cur : MeterRow) (s : String) (y : Int) (m d : Nat) (f : MeterFields)
    (hcur : db.power_meters.filter
      (fun r => r.meter_id == id && r.status.isActive) = [cur])
    (hf : f.start_date = some s)
    (hneq : s ≠ cur.start_date)
    (hps : jsParseDate s = some ⟨y, m, d⟩) :
    ((db.monthly_readings.filter (fun r => r.meter_id == id)).length ≠ 1 →
      updatePowerMeter ⟨330, now_⟩ id true f db = (.error .conflict, db)) ∧
    (∀ r0 : ReadingRow,
      db.monthly_readings.filter (fun r => r.meter_id == id) = [r0] →
      ∃ um : MeterRow,
        (updatePowerMeter ⟨330, now_⟩ id true f db).1 =
          .ok (.inPlace, um, some { r0 with
            month := formatYMD (if m = 1 then ⟨y - 1, 12, 1⟩
              else ⟨y, m - 1, 1⟩),
            previous_reading := um.initial_reading,
            current_reading := um.initial_reading }) ∧
        um.start_date = formatYMD ⟨y, m, 1⟩ ∧
        um.initial_reading = overlay f.initial_reading cur.initial_reading ∧
        (updatePowerMeter ⟨330, now_⟩ id true f db).2.monthly_readings =
          db.monthly_readings.map (fun r =>
            if r.meter_id == id then { r with
              month := formatYMD (if m = 1 then ⟨y - 1, 12, 1⟩
                else ⟨y, m - 1, 1⟩),
              previous_reading := um.initial_reading,
              current_reading := um.initial_reading } else r)) ∧
    (∀ g : MeterFields, g.start_date.isSome = true →
      updatePowerMeter ⟨330, now_⟩ id false g db =
        (.error .badRequest, db)) := by
  obtain ⟨hm1, hm2, _, _, hy0, hy1⟩ := jsParseDate_valid s _ hps
  have hsm : singleRow (db.power_meters.filter
      (fun r => r.meter_id == id && r.status.isActive)) = some cur := by
    rw [hcur]
    rfl
  have hns : monthStartOf ⟨330, now_⟩ ⟨⟨y, m, d⟩, 0⟩ =
      formatYMD ⟨y, m, 1⟩ := monthStartOf_ist y m d hm1 hm2 now_
  have hgate : ((match f.start_date with
      | some s2 => s2 != cur.start_date
      | none => false) ||
      (match f.initial_reading with
      | some v => v != 0 && some v != cur.initial_reading
      | none => false)) = true := by
    rw [hf]
    simp [hneq]
  have hrt : jsParseDate (formatYMD ⟨y, m, 1⟩) = some ⟨y, m, 1⟩ :=
    formatYMD_parse y m 1 hy0 hy1 hm1 hm2 le_rfl
      (le_trans (by omega) (daysInMonth_pos y m))
  have hsk := setMonthMinus1Key_ist_first y m now_
  refine ⟨?_, ?_, ?_⟩
  · intro hcount
    unfold updatePowerMeter
    rw [hsm]
    dsimp only
    rw [if_neg (by rw [hf]; simp)]
    rw [if_pos rfl, if_pos hgate, hf]
    dsimp only
    rw [hps]
    dsimp only
    rw [hns]
    rw [if_pos hcount]
  · intro r0 hr0
    have hcount : ¬((db.monthly_readings.filter
        (fun r => r.meter_id == id)).length ≠ 1) := by
      rw [hr0]
      simp
    unfold updatePowerMeter
    rw [hsm]
    dsimp only
    rw [if_neg (by rw [hf]; simp)]
    rw [if_pos rfl, if_pos hgate, hf]
    dsimp only
    rw [hps]
    dsimp only
    rw [hns]
    rw [if_neg hcount]
    dsimp only [Option.getD_some]
    rw [hrt]
    dsimp only
    rw [hsk, hr0]
    dsimp only [List.head?, Option.map_some]
    exact ⟨_, rfl, rfl, rfl, rfl⟩
  · intro g hg
    unfold updatePowerMeter
    rw [hsm]
    dsimp only
    rw [if_pos (by simp [hg])]

/-- C6, witness: the gate applied to a store whose meter has exactly
one reading row (success case) and the versioned-update rejection. -/
theorem C6_meter_inplace_witness :
    ∃ um : MeterRow,
      (updatePowerMeter ⟨330, ⟨⟨2025, 1, 1⟩, 0⟩⟩ 1 true
        ⟨none, some "2024-05-20", none⟩
        ⟨[tenantW], [meterW], [readingW], [], [], []⟩).1 =
        .ok (.inPlace, um, some { readingW with
          month := formatYMD ⟨2024, 4, 1⟩,
          previous_reading := um.initial_reading,
          current_reading := um.initial_reading }) ∧
      um.start_date = formatYMD ⟨2024, 5, 1⟩ ∧
      um.initial_reading = overlay none meterW.initial_reading ∧
      (updatePowerMeter ⟨330, ⟨⟨2025, 1, 1⟩, 0⟩⟩ 1 true
        ⟨none, some "2024-05-20", none⟩
        ⟨[tenantW], [meterW], [readingW], [], [], []⟩).2.monthly_readings =
        [readingW].map (fun r =>
          if r.meter_id == 1 then { r with
            month := formatYMD ⟨2024, 4, 1⟩,
            previous_reading := um.initial_reading,
            current_reading := um.initial_reading } else r) :=
  ((C6_meter_inplace_gate ⟨⟨2025, 1, 1⟩, 0⟩
    ⟨[tenantW], [meterW], [readingW], [], [], []⟩ 1 meterW "2024-05-20"
    2024 5 20 ⟨none, some "2024-05-20", none⟩ (by decide) rfl (by decide)
    (by decide)).2.1) readingW (by decide)

/-! ### C7 — water history gating -/

theorem activeTenantRows_bump_append (ts : List TenantRow) (tid : Nat)
    (e : String) (nr : TenantRow) (hnid : nr.tenant_id = tid)
    (hnact : nr.status.isActive = true) :
    activeTenantRows (deactivateTenantActives ts tid e ++ [nr]) tid =
      [nr] := by
  have h0 : countActive (deactivateTenantActives ts tid e) tid = 0 :=
    countActive_deactivateActives_self ts tid e
  have hnil : activeTenantRows (deactivateTenantActives ts tid e) tid = [] :=
    List.length_eq_zero.mp h0
  unfold activeTenantRows at *
  rw [List.filter_append, hnil]
  simp [hnid, hnact]

/-- C7: creating Water History when the active tenant already has
`water_required = true` fails with Conflict and changes no rows; in
particular, after one successful Water History creation a second
(without an intervening delete) fails with Conflict and changes
nothing.  Deleting Water History when the active tenant has
`water_required = false` fails with Conflict and changes no rows. -/
theorem C7_water_gates (env : Env) (db : DB) (tid : Nat) (t : TenantRow)
    (ht : activeTenantRows db.tenants tid = [t]) :
    (∀ sd f ns, getMonthStart env sd = .ok ns → t.water_required = true →
      createWater env tid sd f db = (.error .conflict, db)) ∧
    (∀ sd f ns, getMonthStart env sd = .ok ns → t.water_required = false →
      (∃ w tr, (createWater env tid sd f db).1 = .ok (w, tr)) ∧
      (∀ sd2 f2 ns2, getMonthStart env sd2 = .ok ns2 →
        createWater env tid sd2 f2 (createWater env tid sd f db).2 =
          (.error .conflict, (createWater env tid sd f db).2))) ∧
    (∀ wid w, db.water_history.filter
        (fun r => r.water_id == wid && r.status.isActive) = [w] →
      w.tenant_id = tid → t.water_required = false →
      deleteWater env wid db = (.error .conflict, db)) := by
  have hts : singleRow (activeTenantRows db.tenants tid) = some t := by
    rw [ht]
    rfl
  refine ⟨?_, ?_, ?_⟩
  · intro sd f ns hns hw
    unfold createWater
    rw [hns]
    dsimp only
    rw [hts]
    dsimp only
    rw [if_pos hw]
  · intro sd f ns hns hw
    have hrun : (createWater env tid sd f db).2.tenants =
        deactivateTenantActives db.tenants tid (getMonthStartNow env) ++
          [{ t with
               tenant_version := t.tenant_version + 1
               water_required := true
               start_date := getMonthStartNow env
               end_date := none
               status := .active }] := by
      unfold createWater
      rw [hns]
      dsimp only
      rw [hts]
      dsimp only
      rw [if_neg (by rw [hw]; simp)]
    constructor
    · unfold createWater
      rw [hns]
      dsimp only
      rw [hts]
      dsimp only
      rw [if_neg (by rw [hw]; simp)]
      exact ⟨_, _, rfl⟩
    · intro sd2 f2 ns2 hns2
      have hS := activeTenantRows_singleton_props db.tenants tid t ht
      obtain ⟨X, hX⟩ : ∃ X, (createWater env tid sd f db).2 = X := ⟨_, rfl⟩
      rw [hX] at hrun
      rw [hX]
      have hts2 : singleRow (activeTenantRows X.tenants tid) =
          some { t with
               tenant_version := t.tenant_version + 1
               water_required := true
               start_date := getMonthStartNow env
               end_date := none
               status := .active } := by
        rw [hrun, activeTenantRows_bump_append db.tenants tid
          (getMonthStartNow env)
          { t with
               tenant_version := t.tenant_version + 1
               water_required := true
               start_date := getMonthStartNow env
               end_date := none
               status := .active } hS.2.1 rfl]
        rfl
      unfold createWater
      rw [hns2]
      dsimp only
      rw [hts2]
      dsimp only
      rw [if_pos rfl]
  · intro wid w hwid hwt hw
    have hws : singleRow (db.water_history.filter
        (fun r => r.water_id == wid && r.status.isActive)) = some w := by
      rw [hwid]
      rfl
    have hts3 : singleRow (activeTenantRows db.tenants w.tenant_id) =
        some t := by
      rw [hwt, ht]
      rfl
    unfold deleteWater
    rw [hws]
    dsimp only
    rw [hts3]
    dsimp only
    rw [if_pos (by rw [hw]; rfl)]

/-- C7, witness: both gates on concrete stores. -/
theorem C7_water_gates_witness :
    createWater envW 1 (some "2024-03-15") {}
      ⟨[tenantWy], [], [], [], [], []⟩ =
      (.error .conflict, ⟨[tenantWy], [], [], [], [], []⟩) ∧
    deleteWater envW 1 ⟨[tenantW], [], [], [], [waterW], []⟩ =
      (.error .conflict, ⟨[tenantW], [], [], [], [waterW], []⟩) :=
  ⟨(C7_water_gates envW ⟨[tenantWy], [], [], [], [], []⟩ 1 tenantWy
      (by decide)).1 (some "2024-03-15") {} "2024-03-01" (by decide) rfl,
   (C7_water_gates envW ⟨[tenantW], [], [], [], [waterW], []⟩ 1 tenantW
      (by decide)).2.2 1 waterW (by decide) rfl rfl⟩

/-! ### C8 — versioned history updates leave tenants untouched -/

/-- C8: a versioned (non-in-place) update of a Rent, Water or
Maintenance History record leaves the `tenants` table entirely
unchanged (in fact no branch of these update routes ever writes to
`tenants`), and the newly inserted dependent row carries the same
`tenant_version` as the row it supersedes. -/
theorem C8_history_update_frame (env : Env) (db : DB) :
    (∀ id ip f, (updateRent env id ip f db).2.tenants = db.tenants) ∧
    (∀ id ip f, (updateWater env id ip f db).2.tenants = db.tenants) ∧
    (∀ id ip f, (updateMaintenance env id ip f db).2.tenants =
      db.tenants) ∧
    (∀ id f cur, db.rent_history.filter
        (fun r => r.rent_id == id && r.status.isActive) = [cur] →
      ∃ nr, (updateRent env id false f db).1 = .ok (.versioned, nr) ∧
        nr.tenant_version = cur.tenant_version ∧
        nr ∈ (updateRent env id false f db).2.rent_history) ∧
    (∀ id f cur ns, db.water_history.filter
        (fun r => r.water_id == id && r.status.isActive) = [cur] →
      (match f.start_date with
       | some s => (getMonthStart env (some s)).map some
       | none => Except.ok none) = .ok ns →
      ∃ nr, (updateWater env id false f db).1 = .ok (.versioned, nr) ∧
        nr.tenant_version = cur.tenant_version ∧
        nr ∈ (updateWater env id false f db).2.water_history) ∧
    (∀ id f cur ns, db.maintenance_history.filter
        (fun r => r.maintenance_id == id && r.status.isActive) = [cur] →
      (match f.start_date with
       | some s => (getMonthStart env (some s)).map some
       | none => Except.ok none) = .ok ns →
      ∃ nr, (updateMaintenance env id false f db).1 =
          .ok (.versioned, nr) ∧
        nr.tenant_version = cur.tenant_version ∧
        nr ∈ (updateMaintenance env id false f db).2.maintenance_history) := by
  refine ⟨?_, ?_, ?_, ?_, ?_, ?_⟩
  · intro id ip f
    unfold updateRent
    dsimp only
    repeat' split
    all_goals rfl
  · intro id ip f
    unfold updateWater
    dsimp only
    repeat' split
    all_goals rfl
  · intro id ip f
    unfold updateMaintenance
    dsimp only
    repeat' split
    all_goals rfl
  · intro id f cur hcur
    have hs : singleRow (db.rent_history.filter
        (fun r => r.rent_id == id && r.status.isActive)) = some cur := by
      rw [hcur]
      rfl
    unfold updateRent
    rw [hs]
    dsimp only
    exact ⟨_, rfl, rfl, by simp⟩
  · intro id f cur ns hcur hns
    have hs : singleRow (db.water_history.filter
        (fun r => r.water_id == id && r.status.isActive)) = some cur := by
      rw [hcur]
      rfl
    unfold updateWater
    rw [hs]
    dsimp only
    rw [hns]
    dsimp only
    exact ⟨_, rfl, rfl, by simp⟩
  · intro id f cur ns hcur hns
    have hs : singleRow (db.maintenance_history.filter
        (fun r => r.maintenance_id == id && r.status.isActive)) =
        some cur := by
      rw [hcur]
      rfl
    unfold updateMaintenance
    rw [hs]
    dsimp only
    rw [hns]
    dsimp only
    exact ⟨_, rfl, rfl, by simp⟩

/-- C8, witness: a versioned rent update on a one-rent store keeps the
tenants table and pins the new row to the old `tenant_version`. -/
theorem C8_history_update_witness :
    (updateRent envW 1 false {}
      ⟨[tenantW], [], [], [rentW], [], []⟩).2.tenants = [tenantW] ∧
    ∃ nr, (updateRent envW 1 false {}
        ⟨[tenantW], [], [], [rentW], [], []⟩).1 = .ok (.versioned, nr) ∧
      nr.tenant_version = rentW.tenant_version ∧
      nr ∈ (updateRent envW 1 false {}
        ⟨[tenantW], [], [], [rentW], [], []⟩).2.rent_history :=
  ⟨(C8_history_update_frame envW ⟨[tenantW], [], [], [rentW], [], []⟩).1
      1 false {},
   (C8_history_update_frame envW
      ⟨[tenantW], [], [], [rentW], [], []⟩).2.2.2.1 1 {} rentW (by decide)⟩

/-! ### C9 — non-atomic versioned tenant revision on a bad date -/

/-- C9: `ReviseTenant(id, fields, inPlace=false)` with an unparsable
`fields.start_date` returns the ValidationError (InvalidDate) only
after the previously active row was already set inactive with
`end_date` = current month start; no replacement row is inserted, so
the tenant_id is left with zero active rows — the failure is not
atomic. -/
theorem C9_revise_bad_date_partial (env : Env) (db : DB) (id : Nat)
    (r : TenantRow) (f : TenantFields) (s : String)
    (hAU : ActiveUnique db.tenants) (hmem : r ∈ db.tenants)
    (hid : r.tenant_id = id) (hact : r.status.isActive = true)
    (hf : f.start_date = some s) (hbad : jsParseDate s = none) :
    reviseTenant env id false f db =
      (.error .invalidDate,
       { db with tenants := (deactivateTenantVersion db.tenants id
           r.tenant_version (getMonthStartNow env)) }) ∧
    { r with status := .inactive,
             end_date := some (getMonthStartNow env) } ∈
      (reviseTenant env id false f db).2.tenants ∧
    countActive (reviseTenant env id false f db).2.tenants id = 0 ∧
    (reviseTenant env id false f db).2.tenants.length =
      db.tenants.length := by
  have hr : r ∈ activeTenantRows db.tenants id :=
    List.mem_filter.mpr ⟨hmem, by simp [hid, hact]⟩
  have hsingle : activeTenantRows db.tenants id = [r] :=
    activeTenantRows_singleton db.tenants id r (hAU id) hr
  have hmax : maxByVersion (activeTenantRows db.tenants id) = some r := by
    rw [hsingle]
    rfl
  have hge : getMonthStart env (some s) = .error .invalidDate := by
    simp [getMonthStart, hbad]
  have hrun : reviseTenant env id false f db =
      (.error .invalidDate,
       { db with tenants := (deactivateTenantVersion db.tenants id
           r.tenant_version (getMonthStartNow env)) }) := by
    unfold reviseTenant
    rw [hmax]
    simp only [Bool.false_eq_true, if_false]
    rw [hf]
    dsimp only
    rw [hge]
  refine ⟨hrun, ?_, ?_, ?_⟩
  · rw [hrun]
    dsimp only
    unfold deactivateTenantVersion
    refine List.mem_map.mpr ⟨r, hmem, ?_⟩
    rw [if_pos (by simp [hid, hact])]
  · rw [hrun]
    dsimp only
    exact countActive_deactivateVersion_zero db.tenants id r.tenant_version
      (getMonthStartNow env)
      (fun x hx hxid hxact => by
        rw [active_rows_all_eq db.tenants id r hsingle x hx hxid hxact])
  · rw [hrun]
    dsimp only
    unfold deactivateTenantVersion
    exact List.length_map _ _

/-- C9, witness: the theorem on a one-tenant store with start_date
`"garbage"`. -/
theorem C9_revise_bad_date_witness :
    reviseTenant envW 1 false ⟨none, some "garbage"⟩
      ⟨[tenantW], [], [], [], [], []⟩ =
      (.error .invalidDate,
       { (⟨[tenantW], [], [], [], [], []⟩ : DB) with
         tenants := (deactivateTenantVersion [tenantW] 1
           tenantW.tenant_version (getMonthStartNow envW)) }) ∧
    { tenantW with status := .inactive,
                   end_date := some (getMonthStartNow envW) } ∈
      (reviseTenant envW 1 false ⟨none, some "garbage"⟩
        ⟨[tenantW], [], [], [], [], []⟩).2.tenants ∧
    countActive (reviseTenant envW 1 false ⟨none, some "garbage"⟩
      ⟨[tenantW], [], [], [], [], []⟩).2.tenants 1 = 0 ∧
    (reviseTenant envW 1 false ⟨none, some "garbage"⟩
      ⟨[tenantW], [], [], [], [], []⟩).2.tenants.length =
      ([tenantW] : List TenantRow).length :=
  C9_revise_bad_date_partial envW ⟨[tenantW], [], [], [], [], []⟩ 1 tenantW
    ⟨none, some "garbage"⟩ "garbage"
    (by
      intro tid
      by_cases h : tid = 1
      · simp [countActive, activeTenantRows, Status.isActive, tenantW, h]
      · have hb : ((1 : Nat) == tid) = false := by
          simp [Ne.symm h]
        simp [countActive, activeTenantRows, Status.isActive, tenantW, hb])
    (by simp) rfl rfl rfl (by decide)

/-! ### C10 — meter delete after partial completion -/

/-- C10: deleting a Power Meter marks the meter row inactive with
`end_date` = current month start before the owning tenant is looked up;
when no active tenant row exists the route returns NotFound with the
meter already inactivated, and the tenants table is untouched (no
version bump, no `power_meter_count` decrement). -/
theorem C10_delete_meter_partial (env : Env) (db : DB) (id : Nat)
    (meter : MeterRow)
    (hm : db.power_meters.filter
      (fun r => r.meter_id == id && r.status.isActive) = [meter])
    (hno : activeTenantRows db.tenants meter.tenant_id = []) :
    deletePowerMeter env id db =
      (.error .notFound,
       { db with power_meters := (db.power_meters.map (fun r =>
           if r.meter_id == id then
             { r with status := .inactive,
                      end_date := some (getMonthStartNow env) }
           else r)) }) ∧
    { meter with status := .inactive,
                 end_date := some (getMonthStartNow env) } ∈
      (deletePowerMeter env id db).2.power_meters ∧
    (deletePowerMeter env id db).2.tenants = db.tenants := by
  have hs : singleRow (db.power_meters.filter
      (fun r => r.meter_id == id && r.status.isActive)) = some meter := by
    rw [hm]
    rfl
  have hnone : singleRow (activeTenantRows db.tenants meter.tenant_id) =
      none := by
    rw [hno]
    rfl
  have hmm : meter ∈ db.power_meters ∧
      (meter.meter_id == id && meter.status.isActive) = true :=
    List.mem_filter.mp (hm ▸ List.mem_singleton.mpr rfl)
  have hrun : deletePowerMeter env id db =
      (.error .notFound,
       { db with power_meters := (db.power_meters.map (fun r =>
           if r.meter_id == id then
             { r with status := .inactive,
                      end_date := some (getMonthStartNow env) }
           else r)) }) := by
    unfold deletePowerMeter
    rw [hs]
    dsimp only
    rw [hnone]
  refine ⟨hrun, ?_, ?_⟩
  · rw [hrun]
    dsimp only
    refine List.mem_map.mpr ⟨meter, hmm.1, ?_⟩
    rw [if_pos (by
      have := hmm.2
      simp only [Bool.and_eq_true] at this
      exact this.1)]
  · rw [hrun]

/-- C10, witness: the theorem on a store whose meter's tenant has no
active row. -/
theorem C10_delete_meter_witness :
    deletePowerMeter envW 1 ⟨[], [meterW], [], [], [], []⟩ =
      (.error .notFound,
       { (⟨[], [meterW], [], [], [], []⟩ : DB) with
         power_meters := ([meterW].map (fun r =>
           if r.meter_id == 1 then
             { r with status := .inactive,
                      end_date := some (getMonthStartNow envW) }
           else r)) }) ∧
    { meterW with status := .inactive,
                  end_date := some (getMonthStartNow envW) } ∈
      (deletePowerMeter envW 1 ⟨[], [meterW], [], [], [], []⟩).2.power_meters ∧
    (deletePowerMeter envW 1 ⟨[], [meterW], [], [], [], []⟩).2.tenants =
      ([] : List TenantRow) :=
  C10_delete_meter_partial envW ⟨[], [meterW], [], [], [], []⟩ 1 meterW
    (by decide) rfl
